import Mathlib

/-!
Shallow embedding of `ggplot/layer.py`: the `Layers` list, the `layer`
pipeline stages (`compute_aesthetics`, `compute_statistic`, `map_statistic`,
`setup_data`, `compute_position`, `__deepcopy__`) and the grouping helpers
(`add_group`, `discrete_columns`), together with theorems settling the
specification claims about them.

Values stored in dataframe cells are modelled by the closed inductive `Val`:
integers, floats that arose from widening integers (the only floats the
claims exercise), strings and booleans.  A pandas `DataFrame` is modelled by
its row count (the index length) and an ordered association list of named
columns.
-/

namespace GGLayer

/-- A cell value of a dataframe column. `vFloat` carries the integer it was
widened from (`evaled[col].astype(np.float)` on an int column). -/
inductive Val where
  | vInt (n : Int)
  | vFloat (n : Int)
  | vStr (s : String)
  | vBool (b : Bool)
deriving DecidableEq, Repr

instance : Inhabited Val := ⟨Val.vInt 0⟩

/-- A pandas DataFrame: a row count (the length of its index) and the ordered
list of named columns. -/
structure DataFrame where
  nrows : Nat
  cols : List (String × List Val)
deriving DecidableEq, Repr

/-- The column names, in column order (`df.columns`). -/
def DataFrame.colNames (df : DataFrame) : List String :=
  df.cols.map Prod.fst

/-- `name in df`. -/
def DataFrame.hasCol (df : DataFrame) (name : String) : Bool :=
  df.colNames.contains name

/-- `df[name]` as an `Option` (a missing column is a Python `KeyError`). -/
def DataFrame.getCol (df : DataFrame) (name : String) : Option (List Val) :=
  (df.cols.find? (fun p => p.1 = name)).map Prod.snd

/-- Helper for `setCol`: replace the first column of this name in place
(pandas keeps the column position), else append at the end. -/
def setColAux (name : String) (vs : List Val) :
    List (String × List Val) → List (String × List Val)
  | [] => [(name, vs)]
  | (m, c) :: rest =>
      if m = name then (name, vs) :: rest else (m, c) :: setColAux name vs rest

/-- `df[name] = vs` for a list-like right-hand side. -/
def DataFrame.setCol (df : DataFrame) (name : String) (vs : List Val) :
    DataFrame :=
  ⟨df.nrows, setColAux name vs df.cols⟩

/-- `df[name] = v` for a scalar right-hand side: pandas broadcasts the scalar
over the index. -/
def DataFrame.setColScalar (df : DataFrame) (name : String) (v : Val) :
    DataFrame :=
  df.setCol name (List.replicate df.nrows v)

/-- `type(data)(index=data.index)`: an empty frame over the same index. -/
def DataFrame.emptyLike (df : DataFrame) : DataFrame :=
  ⟨df.nrows, []⟩

/-! ## Grouping (`layer.py` lines 381-416) -/

/-- The sentinel group id (`NO_GROUP = -1`). -/
def NO_GROUP : Int := -1

/-- The pandas dtype kinds distinguishable over `Val` columns: integer,
float, boolean, object. -/
inductive DtypeKind where
  | ikind
  | fkind
  | bkind
  | okind
deriving DecidableEq, Repr

/-- Is this cell an integer? -/
def Val.isInt : Val → Bool
  | .vInt _ => true
  | _ => false

/-- Is this cell a float? -/
def Val.isFloat : Val → Bool
  | .vFloat _ => true
  | _ => false

/-- Is this cell a boolean? -/
def Val.isBool : Val → Bool
  | .vBool _ => true
  | _ => false

/-- The dtype kind of a column: all-integer columns are `int64` (kind `i`),
numeric columns with a float are `float64` (kind `f`), all-boolean columns
are `bool` (kind `b`), anything else (strings, mixed values) is `object`
(kind `O`). -/
def colKind (c : List Val) : DtypeKind :=
  if c.all Val.isInt then .ikind
  else if c.all (fun v => v.isInt || v.isFloat) then .fkind
  else if c.all Val.isBool then .bkind
  else .okind

/-- Membership in `DISCRETE_KINDS` (`'ObUS'`) for the kinds expressible
here: boolean and object columns are discrete. -/
def kindIsDiscrete : DtypeKind → Bool
  | .bkind => true
  | .okind => true
  | _ => false

/-- `discrete_columns(df, ignore)`: the names of the discrete-kind columns
not in `ignore`, in column order.  Every `Val` is hashable, so the
`hash(df[col].iloc[0])` probe of the source never skips a column here. -/
def discrete_columns (df : DataFrame) (ignore : List String) : List String :=
  (df.cols.filter
    (fun p => kindIsDiscrete (colKind p.2) && !(ignore.contains p.1))).map
    Prod.fst

/-- Modelled from the spec: the distinct composite keys in first-appearance
order, the deterministic rank order chosen for `ninteraction` (the source of
`ninteraction`, imported from `..utils`, is not part of this repository;
spec §4.2 leaves the rank order implementation-defined). -/
def uniqKeys : List (List Val) → List (List Val)
  | [] => []
  | k :: ks => k :: (uniqKeys ks).filter (fun a => a ≠ k)

/-- The rank of a key: index of its first occurrence in the key list. -/
def keyIndex (k : List Val) : List (List Val) → Nat
  | [] => 0
  | a :: rest => if a = k then 0 else keyIndex k rest + 1

/-- Modelled from the spec: `ninteraction(df, drop=True)` (imported from
`..utils`, not part of this repository) interaction-codes each row's
composite key to a dense integer id `1..K`, ranking the distinct keys
deterministically (here: first-appearance order). -/
def ninteraction (keys : List (List Val)) : List Int :=
  keys.map (fun k => (keyIndex k (uniqKeys keys) : Int) + 1)

/-- The composite key of row `i` over the columns `names`, in order. -/
def DataFrame.rowKey (df : DataFrame) (names : List String) (i : Nat) :
    List Val :=
  names.map (fun n => ((df.getCol n).getD []).getD i default)

/-- The composite keys of all rows over the columns `names`
(`data[names]` as a list of row tuples). -/
def keysOf (df : DataFrame) (names : List String) : List (List Val) :=
  (List.range df.nrows).map (df.rowKey names)

/-- `add_group(data)` (`layer.py` lines 384-397). -/
def add_group (data : DataFrame) : DataFrame :=
  if data.nrows = 0 then data
  else if !(data.hasCol "group") then
    if discrete_columns data ["label"] ≠ [] then
      data.setCol "group"
        ((ninteraction (keysOf data (discrete_columns data ["label"]))).map
          Val.vInt)
    else data.setColScalar "group" (Val.vInt NO_GROUP)
  else
    data.setCol "group" ((ninteraction (keysOf data ["group"])).map Val.vInt)

/-- The columns the grouping step keys on: the already-resolved `group`
column when present, else the discrete columns (ignoring `label`). -/
def selectedColumns (df : DataFrame) : List String :=
  if df.hasCol "group" then ["group"] else discrete_columns df ["label"]

/-- The group ids `add_group` assigns, one per row. -/
def groupIds (df : DataFrame) : List Int :=
  if df.hasCol "group" then ninteraction (keysOf df ["group"])
  else if discrete_columns df ["label"] = [] then
    List.replicate df.nrows NO_GROUP
  else ninteraction (keysOf df (discrete_columns df ["label"]))

/-! ## `layer.compute_aesthetics` (`layer.py` lines 194-268) -/

/-- The runtime shape of a mapped aesthetic value, as the source's
type-dispatch distinguishes it: a string (column name or expression text),
a list-like vector, a non-iterable numeric scalar, or anything else. -/
inductive AesVal where
  | str (s : String)
  | vec (vs : List Val)
  | num (v : Val)
  | unsupported
deriving DecidableEq, Repr

/-- What `env.eval(col, inner_namespace=data)` can produce: a scalar, a
list-like of values, or a value no dataframe column can hold (tagged with
its type name). -/
inductive EvalResult where
  | scalar (v : Val)
  | vector (vs : List Val)
  | bad (tyName : String)
deriving DecidableEq, Repr

/-- The evaluation environment (`patsy.EvalEnvironment`, external):
expression text and dataset to exception message or result. -/
def EvalEnv : Type := String → DataFrame → Except String EvalResult

/-- The exceptions the pipeline stages can raise.  The first five model
`GgplotError` messages of `layer.py` (`_TPL_EVAL_FAIL`,
`_TPL_BAD_EVAL_TYPE`, the length-mismatch message, the unknown-aesthetic
message) and the missing-required-aesthetics error; the last two model
pandas/Python exceptions escaping uncaught. -/
inductive Err where
  | evalFail (ae expr cause : String)
  | badEvalType (ae expr cause : String)
  | lengthMismatch
  | unknownAesthetic (ae : String)
  | missingAes (geomName : String) (missing : List String)
  | valueLength
  | keyError (key : String)
deriving DecidableEq, Repr

/-- `evaled[ae] = new_val` for an expression-evaluation result: scalars
broadcast over the index, vectors must match the index length, other
values raise — caught and re-raised as `_TPL_BAD_EVAL_TYPE` (lines
229-234). -/
def assignEvalResult (evaled : DataFrame) (ae expr : String) :
    EvalResult → Except Err DataFrame
  | .scalar v => .ok (evaled.setColScalar ae v)
  | .vector vs =>
      if vs.length = evaled.nrows then .ok (evaled.setCol ae vs)
      else .error (.badEvalType ae expr "ValueError")
  | .bad ty => .error (.badEvalType ae expr ty)

/-- One iteration of the resolution loop (lines 218-249) over the running
`(evaled, has_aes_params)` state. -/
def processOne (env : EvalEnv) (data : DataFrame) (st : DataFrame × Bool)
    (ae : String) : AesVal → Except Err (DataFrame × Bool)
  | .str s =>
      if data.hasCol s then
        .ok (st.1.setCol ae ((data.getCol s).getD []), st.2)
      else
        match env s data with
        | .error e => .error (.evalFail ae s e)
        | .ok r => (assignEvalResult st.1 ae s r).map (fun d => (d, st.2))
  | .vec vs =>
      if data.nrows ≠ 0 ∧ vs.length ≠ data.nrows ∧ vs.length ≠ 1 then
        .error .lengthMismatch
      else if vs.length = 1 then
        .ok (st.1.setColScalar ae (vs.headD default), true)
      else if vs.length = st.1.nrows then .ok (st.1.setCol ae vs, true)
      else .error .valueLength
  | .num v => .ok (st.1.setColScalar ae v, st.2)
  | .unsupported => .error (.unknownAesthetic ae)

/-- The whole resolution loop over the aesthetics in mapping order. -/
def processAll (env : EvalEnv) (data : DataFrame) :
    List (String × AesVal) → DataFrame × Bool →
      Except Err (DataFrame × Bool)
  | [], st => .ok st
  | (ae, v) :: rest, st =>
      (processOne env data st ae v).bind (processAll env data rest)

/-- Replace (or add) one aesthetic in a mapping. -/
def setAesAux (name : String) (v : AesVal) :
    List (String × AesVal) → List (String × AesVal)
  | [] => [(name, v)]
  | (m, w) :: rest =>
      if m = name then (name, v) :: rest else (m, w) :: setAesAux name v rest

/-- Lines 206-207: an explicit `group` among the geom's fixed aesthetic
parameters overrides any mapped `group` aesthetic. -/
def applyGroupOverride (aesthetics : List (String × AesVal)) :
    Option AesVal → List (String × AesVal)
  | none => aesthetics
  | some v => setAesAux "group" v aesthetics

/-- Cast an int cell to float (`astype(np.float)` acts cellwise). -/
def widenVal : Val → Val
  | .vInt n => .vFloat n
  | v => v

/-- Widen one column when its dtype is int (lines 255-257). -/
def widenCol (c : List Val) : List Val :=
  if c.all Val.isInt then c.map widenVal else c

/-- Lines 255-257: every int-dtype column of `evaled` is cast to float. -/
def widenInts (df : DataFrame) : DataFrame :=
  ⟨df.nrows, df.cols.map (fun p => (p.1, widenCol p.2))⟩

/-- Lines 262-266: `PANEL` is the constant 1 when the source dataset is
empty but aesthetic parameters were supplied, else it is copied from the
source dataset (a missing source `PANEL` column is a `KeyError`). -/
def panelStep (data evaled : DataFrame) (hasAesParams : Bool) :
    Except Err DataFrame :=
  if data.nrows = 0 ∧ hasAesParams = true then
    .ok (evaled.setColScalar "PANEL" (Val.vInt 1))
  else
    match data.getCol "PANEL" with
    | none => .error (.keyError "PANEL")
    | some c => .ok (evaled.setCol "PANEL" c)

/-- `layer.compute_aesthetics` from the already-resolved active aesthetic
mapping: apply the geom's `group` override, build `evaled` over `data`'s
index and resolve each aesthetic in order, widen int columns to float, set
the `PANEL` column, then `add_group`.  The `plot.scales.add_defaults` call
(lines 259-260) mutates external scale state only and does not change the
returned frame, so it is omitted. -/
def computeAesthetics (env : EvalEnv) (data : DataFrame)
    (aesthetics : List (String × AesVal)) (groupOverride : Option AesVal) :
    Except Err DataFrame :=
  (processAll env data (applyGroupOverride aesthetics groupOverride)
      (data.emptyLike, false)).bind
    (fun st => (panelStep data (widenInts st.1) st.2).map add_group)

/-- Is this aesthetic value a literal vector (the only shape that sets
`has_aes_params`)? -/
def AesVal.isVec : AesVal → Bool
  | .vec _ => true
  | _ => false

/-- Does the mapping contain a literal vector (the only shape that sets
`has_aes_params`)? -/
def hasVecParam (aesthetics : List (String × AesVal)) : Bool :=
  aesthetics.any (fun p => p.2.isVec)

/-! ## The other pipeline stages (`layer.py` lines 270-351) -/

/-- The statistic unit's contract (external collaborator, §6 of the spec):
`setup_params`, `use_defaults`, `setup_data`, `compute_layer`. -/
structure StatUnit (π ρ : Type) where
  setup_params : DataFrame → π
  use_defaults : DataFrame → DataFrame
  setup_data : DataFrame → DataFrame
  compute_layer : DataFrame → π → ρ → DataFrame

/-- `layer.compute_statistic` (lines 270-282), modelled as the layer's
dataset after the call: the empty-data early return leaves `self.data`
unchanged; otherwise the stat hooks run in source order and their result
replaces the dataset. -/
def computeStatistic {π ρ : Type} (stat : StatUnit π ρ) (panel : ρ)
    (data : DataFrame) : DataFrame :=
  if data.nrows = 0 then data
  else
    let params := stat.setup_params data
    stat.compute_layer (stat.setup_data (stat.use_defaults data)) params
      panel

/-- The geometric-renderer unit's contract: `setup_data` plus the static
`REQUIRED_AES` and `aes_params` metadata (and the class name used in error
messages). -/
structure GeomUnit where
  name : String
  setup_data : DataFrame → DataFrame
  required_aes : List String
  aes_params : List String

/-- `layer.setup_data` (lines 326-341), modelled as the layer's dataset
after the call.  The required-aesthetics check models
`check_required_aesthetics` from `..utils` (not part of this repository);
per the spec it raises naming the renderer and the missing aesthetics when
a required aesthetic is neither a column nor a fixed parameter. -/
def layerSetupData (geom : GeomUnit) (data : DataFrame) :
    Except Err DataFrame :=
  if data.nrows = 0 then .ok data
  else
    let d := geom.setup_data data
    let missing := geom.required_aes.filter
      (fun a => !(d.colNames.contains a) && !(geom.aes_params.contains a))
    if missing ≠ [] then .error (.missingAes geom.name missing)
    else .ok d

/-- The position-adjustment unit's contract: `setup_params`, `setup_data`,
`compute_layer`. -/
structure PositionUnit (π ρ : Type) where
  setup_params : DataFrame → π
  setup_data : DataFrame → π → DataFrame
  compute_layer : DataFrame → π → ρ → DataFrame

/-- `layer.compute_position` (lines 343-351): no empty-data guard — it
always delegates to the position unit's hooks in source order. -/
def computePosition {π ρ : Type} (pos : PositionUnit π ρ) (panel : ρ)
    (data : DataFrame) : DataFrame :=
  let params := pos.setup_params data
  pos.compute_layer (pos.setup_data data params) params panel

/-! ## `layer.map_statistic` (`layer.py` lines 284-324) -/

/-- Modelled from the spec: a calculated aesthetic's expression is a string
bracketed by the reserved `..` markers (`aes.is_calculated_aes`, from the
`..aes` module, is not part of this repository). -/
def isCalculated (s : String) : Bool :=
  (s.data.take 2 = ['.', '.']) && (s.data.reverse.take 2 = ['.', '.']) &&
    decide (4 < s.data.length)

/-- Modelled from the spec: `strip_dots` removes the reserved `..` markers
to recover the computed column's name (`aes.strip_dots` is not part of
this repository). -/
def strip_dots (s : String) : String :=
  String.mk ((s.data.drop 2).take (s.data.length - 4))

/-- Modelled from the spec: `defaults(d1, d2)` overlays two mappings —
every key of `d1` wins, missing keys are filled from `d2` (`..utils`, not
part of this repository). -/
def defaults (d1 d2 : List (String × AesVal)) : List (String × AesVal) :=
  d1 ++ d2.filter (fun p => !((d1.map Prod.fst).contains p.1))

/-- Lines 292-297: the aesthetics `map_statistic` works from — the layer
mapping, overlaid (when inheriting) on the plot mapping, overlaid on the
statistic's `DEFAULT_AES`. -/
def assembleAes (mapping plotMapping statDefaultAes :
    List (String × AesVal)) (inherit_aes : Bool) :
    List (String × AesVal) :=
  defaults (if inherit_aes then defaults mapping plotMapping else mapping)
    statDefaultAes

/-- The `(aesthetic, strip_dots(expression))` pairs for the calculated
aesthetics, in mapping order (the `new` dict of lines 303-311). -/
def calcPairs (aesthetics : List (String × AesVal)) :
    List (String × String) :=
  aesthetics.filterMap (fun p => match p.2 with
    | .str s => if isCalculated s then some (p.1, strip_dots s) else none
    | _ => none)

/-- The `stat_data` frame of lines 304-311: one column per calculated
aesthetic whose name differs from its stripped source column (the `ae !=
new[ae]` guard avoiding duplicates for cases like `y = '..y..'`); a
missing source column is a `KeyError`. -/
def buildStatData (data : DataFrame) :
    List (String × String) → DataFrame → Except Err DataFrame
  | [], acc => .ok acc
  | (ae, src) :: rest, acc =>
      if ae = src then buildStatData data rest acc
      else
        match data.getCol src with
        | none => .error (.keyError src)
        | some c => buildStatData data rest (acc.setCol ae c)

/-- `pd.concat([data, stat_data], axis=1)` on index-aligned frames:
columns are juxtaposed. -/
def concatCols (a b : DataFrame) : DataFrame :=
  ⟨a.nrows, a.cols ++ b.cols⟩

/-- `layer.map_statistic` (lines 284-324), modelled as the layer's dataset
after the call: empty data returns it unchanged, no calculated aesthetics
return it unchanged, otherwise `stat_data` is built, optionally
re-transformed through the scale system (`retransform`), and concatenated
onto the data.  The `plot.scales.add_defaults` side effect is omitted. -/
def mapStatistic (mapping plotMapping statDefaultAes :
    List (String × AesVal)) (inherit_aes retransform : Bool)
    (transform : DataFrame → DataFrame) (data : DataFrame) :
    Except Err DataFrame :=
  if data.nrows = 0 then .ok data
  else if calcPairs
      (assembleAes mapping plotMapping statDefaultAes inherit_aes) = []
    then .ok data
  else
    (buildStatData data
      (calcPairs (assembleAes mapping plotMapping statDefaultAes
        inherit_aes)) ⟨data.nrows, []⟩).map (fun sd =>
      concatCols data (if retransform then transform sd else sd))

/-! ## `Layers` (list of layers, `layer.py` lines 28-53)

A member layer is modelled by its `zorder` field plus an opaque payload
standing for every other field of the object. -/

/-- A layer as seen by the `Layers` container: its `zorder` and all of its
other fields bundled opaquely as `payload`. -/
structure PLayer (α : Type) where
  zorder : Nat
  payload : α
deriving DecidableEq, Repr

/-- The zorder values of a list of layers, in list order. -/
def zorders {α : Type} (L : List (PLayer α)) : List Nat :=
  L.map PLayer.zorder

/-- The non-zorder fields of a list of layers, in list order. -/
def payloads {α : Type} (L : List (PLayer α)) : List α :=
  L.map PLayer.payload

/-- `enumerate(other, start=i)` assigning `item.zorder = i` in order:
the loop body of `Layers._set_zorder`. -/
def setZorderAux {α : Type} (i : Nat) : List (PLayer α) → List (PLayer α)
  | [] => []
  | x :: xs => { x with zorder := i } :: setZorderAux (i + 1) xs

namespace Layers

/-- `Layers._set_zorder(self, other)`: renumber `other`'s layers starting at
`len(self) + 1`.  In Python this mutates the layer objects of `other` in
place and returns `other`; here it returns the updated layers. -/
def set_zorder {α : Type} (self other : List (PLayer α)) :
    List (PLayer α) :=
  setZorderAux (self.length + 1) other

/-- `Layers.append`: set `item.zorder = len(self) + 1`, then `list.append`. -/
def append {α : Type} (self : List (PLayer α)) (item : PLayer α) :
    List (PLayer α) :=
  self ++ [{ item with zorder := self.length + 1 }]

/-- `Layers.extend`: `other = self._set_zorder(other)` then `list.extend`. -/
def extend {α : Type} (self other : List (PLayer α)) : List (PLayer α) :=
  self ++ set_zorder self other

/-- `Layers.__iadd__`: `other = self._set_zorder(other)` then
`list.__iadd__`. -/
def iadd {α : Type} (self other : List (PLayer α)) : List (PLayer α) :=
  self ++ set_zorder self other

/-- `Layers.__add__`: `other = self._set_zorder(other)` then
`list.__add__` (a fresh list; `self` is not modified, but the layers of
`other` have been renumbered in place before concatenation). -/
def add {α : Type} (self other : List (PLayer α)) : List (PLayer α) :=
  self ++ set_zorder self other

end Layers

/-! ## `layer.__deepcopy__` (`layer.py` lines 146-162)

Python object identity is modelled by tagging every attribute value with an
object id: a `PyObj` is an id plus the (opaque, numeric) structural value of
the object.  `deepcopy(x, memo)` returns an object with a fresh id (drawn
from a counter that exceeds every live id) and the same structural value,
except that an id already copied in `memo` is reused, preserving aliasing. -/

/-- A Python object reference: its identity and its structural value. -/
structure PyObj where
  id : Nat
  val : Nat
deriving DecidableEq, Repr

/-- The fields of a `layer` object, in `__init__` assignment order (which is
the `__dict__` iteration order copied by `__deepcopy__`). -/
structure LayerObj where
  geom : PyObj
  stat : PyObj
  data : PyObj
  mapping : PyObj
  position : PyObj
  inherit_aes : PyObj
  show_legend : PyObj
  active_mapping : PyObj
  zorder : PyObj
deriving DecidableEq, Repr

/-- `deepcopy(o, memo)` with a fresh-id counter: a memo hit returns the
already-made copy; otherwise a fresh id holding the same structural value is
produced and recorded in the memo. -/
def deepcopyObj (memo : List (Nat × Nat)) (fresh : Nat) (o : PyObj) :
    PyObj × List (Nat × Nat) × Nat :=
  match memo.find? (fun p => p.1 = o.id) with
  | some p => (⟨p.2, o.val⟩, memo, fresh)
  | none => (⟨fresh, o.val⟩, (o.id, fresh) :: memo, fresh + 1)

/-- Step 1 of `__deepcopy__`'s `__dict__` loop: copy `geom` (fresh memo). -/
def dcGeom (fresh : Nat) (l : LayerObj) : PyObj × List (Nat × Nat) × Nat :=
  deepcopyObj [] fresh l.geom

/-- Step 2: copy `stat`, threading the memo. -/
def dcStat (fresh : Nat) (l : LayerObj) : PyObj × List (Nat × Nat) × Nat :=
  deepcopyObj (dcGeom fresh l).2.1 (dcGeom fresh l).2.2 l.stat

/-- Step 3 (`data` is skipped — shared, not copied): copy `mapping`. -/
def dcMapping (fresh : Nat) (l : LayerObj) : PyObj × List (Nat × Nat) × Nat :=
  deepcopyObj (dcStat fresh l).2.1 (dcStat fresh l).2.2 l.mapping

/-- Step 4: copy `position`. -/
def dcPosition (fresh : Nat) (l : LayerObj) :
    PyObj × List (Nat × Nat) × Nat :=
  deepcopyObj (dcMapping fresh l).2.1 (dcMapping fresh l).2.2 l.position

/-- Step 5: copy `inherit_aes`. -/
def dcInheritAes (fresh : Nat) (l : LayerObj) :
    PyObj × List (Nat × Nat) × Nat :=
  deepcopyObj (dcPosition fresh l).2.1 (dcPosition fresh l).2.2 l.inherit_aes

/-- Step 6: copy `show_legend`. -/
def dcShowLegend (fresh : Nat) (l : LayerObj) :
    PyObj × List (Nat × Nat) × Nat :=
  deepcopyObj (dcInheritAes fresh l).2.1 (dcInheritAes fresh l).2.2
    l.show_legend

/-- Step 7: copy `_active_mapping`. -/
def dcActiveMapping (fresh : Nat) (l : LayerObj) :
    PyObj × List (Nat × Nat) × Nat :=
  deepcopyObj (dcShowLegend fresh l).2.1 (dcShowLegend fresh l).2.2
    l.active_mapping

/-- Step 8: copy `zorder`. -/
def dcZorder (fresh : Nat) (l : LayerObj) : PyObj × List (Nat × Nat) × Nat :=
  deepcopyObj (dcActiveMapping fresh l).2.1 (dcActiveMapping fresh l).2.2
    l.zorder

/-- `layer.__deepcopy__`: copy every attribute of `__dict__` through
`deepcopy(..., memo)` except `data`, which the result shares by reference
with the original. -/
def layer_deepcopy (fresh : Nat) (l : LayerObj) : LayerObj × Nat :=
  (⟨(dcGeom fresh l).1, (dcStat fresh l).1, l.data, (dcMapping fresh l).1,
    (dcPosition fresh l).1, (dcInheritAes fresh l).1,
    (dcShowLegend fresh l).1, (dcActiveMapping fresh l).1,
    (dcZorder fresh l).1⟩, (dcZorder fresh l).2.2)

/-- Every id in the layer is below the fresh-id counter (all objects are
live in the heap the counter describes). -/
abbrev LayerObj.idsBelow (l : LayerObj) (fresh : Nat) : Prop :=
  l.geom.id < fresh ∧ l.stat.id < fresh ∧ l.data.id < fresh ∧
  l.mapping.id < fresh ∧ l.position.id < fresh ∧
  l.inherit_aes.id < fresh ∧ l.show_legend.id < fresh ∧
  l.active_mapping.id < fresh ∧ l.zorder.id < fresh

/-- The invariant: zorder values are exactly `1..N` in list order. -/
abbrev zordersConsecutive {α : Type} (L : List (PLayer α)) : Prop :=
  zorders L = List.range' 1 L.length

theorem zorders_append {α : Type} (L M : List (PLayer α)) :
    zorders (L ++ M) = zorders L ++ zorders M := by
  simp [zorders]

theorem payloads_append {α : Type} (L M : List (PLayer α)) :
    payloads (L ++ M) = payloads L ++ payloads M := by
  simp [payloads]

theorem zorders_setZorderAux {α : Type} (i : Nat) (M : List (PLayer α)) :
    zorders (setZorderAux i M) = List.range' i M.length := by
  induction M generalizing i with
  | nil => simp [zorders, setZorderAux]
  | cons x xs ih =>
      simp [zorders, setZorderAux, List.range'_succ] at *
      exact ih (i + 1)

theorem payloads_setZorderAux {α : Type} (i : Nat) (M : List (PLayer α)) :
    payloads (setZorderAux i M) = payloads M := by
  induction M generalizing i with
  | nil => rfl
  | cons x xs ih =>
      simp [payloads, setZorderAux] at *
      exact ih (i + 1)

theorem length_setZorderAux {α : Type} (i : Nat) (M : List (PLayer α)) :
    (setZorderAux i M).length = M.length := by
  induction M generalizing i with
  | nil => rfl
  | cons x xs ih => simpa [setZorderAux] using ih (i + 1)

/-- C1: for a `Layers` list whose zorders are exactly `1..N` in list order,
`append`, `extend`, `__iadd__` and `__add__` each yield a list whose zorders
are exactly `1..M` in list order for `M` the new length, and every layer's
non-zorder fields are unchanged. -/
theorem layers_insertion_zorder_invariant {α : Type}
    (L M : List (PLayer α)) (x : PLayer α) (h : zordersConsecutive L) :
    (zordersConsecutive (Layers.append L x) ∧
      payloads (Layers.append L x) = payloads L ++ [x.payload]) ∧
    (zordersConsecutive (Layers.extend L M) ∧
      payloads (Layers.extend L M) = payloads L ++ payloads M) ∧
    (zordersConsecutive (Layers.iadd L M) ∧
      payloads (Layers.iadd L M) = payloads L ++ payloads M) ∧
    (zordersConsecutive (Layers.add L M) ∧
      payloads (Layers.add L M) = payloads L ++ payloads M) := by
  have hext : zordersConsecutive (Layers.extend L M) ∧
      payloads (Layers.extend L M) = payloads L ++ payloads M := by
    constructor
    · show zorders _ = _
      rw [Layers.extend, zorders_append, h, Layers.set_zorder,
        zorders_setZorderAux, List.length_append, length_setZorderAux]
      have h1 : (1 : Nat) + L.length = L.length + 1 := Nat.add_comm _ _
      calc List.range' 1 L.length ++ List.range' (L.length + 1) M.length
          = List.range' 1 L.length ++ List.range' (1 + L.length) M.length := by
            rw [h1]
        _ = List.range' 1 (M.length + L.length) := List.range'_append_1 _ _ _
        _ = List.range' 1 (L.length + M.length) := by rw [Nat.add_comm]
    · rw [Layers.extend, payloads_append, Layers.set_zorder,
        payloads_setZorderAux]
  refine ⟨?_, hext, hext, hext⟩
  constructor
  · show zorders _ = _
    rw [Layers.append, zorders_append, h, List.length_append]
    simp [zorders, List.range'_concat, Nat.add_comm]
  · rw [Layers.append, payloads_append]
    rfl

/-- Witness for C1 at a concrete list. -/
theorem layers_insertion_zorder_invariant_witness :
    zordersConsecutive
      [PLayer.mk 1 (10 : Nat), PLayer.mk 2 20] ∧
    ((zordersConsecutive
        (Layers.append [PLayer.mk 1 (10 : Nat), PLayer.mk 2 20]
          (PLayer.mk 9 40)) ∧
      payloads (Layers.append [PLayer.mk 1 (10 : Nat), PLayer.mk 2 20]
          (PLayer.mk 9 40)) =
        payloads [PLayer.mk 1 (10 : Nat), PLayer.mk 2 20] ++ [40]) ∧
    (zordersConsecutive
        (Layers.extend [PLayer.mk 1 (10 : Nat), PLayer.mk 2 20]
          [PLayer.mk 7 30]) ∧
      payloads (Layers.extend [PLayer.mk 1 (10 : Nat), PLayer.mk 2 20]
          [PLayer.mk 7 30]) =
        payloads [PLayer.mk 1 (10 : Nat), PLayer.mk 2 20] ++
          payloads [PLayer.mk 7 30]) ∧
    (zordersConsecutive
        (Layers.iadd [PLayer.mk 1 (10 : Nat), PLayer.mk 2 20]
          [PLayer.mk 7 30]) ∧
      payloads (Layers.iadd [PLayer.mk 1 (10 : Nat), PLayer.mk 2 20]
          [PLayer.mk 7 30]) =
        payloads [PLayer.mk 1 (10 : Nat), PLayer.mk 2 20] ++
          payloads [PLayer.mk 7 30]) ∧
    (zordersConsecutive
        (Layers.add [PLayer.mk 1 (10 : Nat), PLayer.mk 2 20]
          [PLayer.mk 7 30]) ∧
      payloads (Layers.add [PLayer.mk 1 (10 : Nat), PLayer.mk 2 20]
          [PLayer.mk 7 30]) =
        payloads [PLayer.mk 1 (10 : Nat), PLayer.mk 2 20] ++
          payloads [PLayer.mk 7 30])) :=
  ⟨by decide,
   layers_insertion_zorder_invariant
     [PLayer.mk 1 (10 : Nat), PLayer.mk 2 20] [PLayer.mk 7 30]
     (PLayer.mk 9 40) (by decide)⟩

/-- C10: `Layers.__add__ L M` renumbers the layers of `M` in place (they are
the very objects `_set_zorder` updated) to `len(L)+1 .. len(L)+len(M)` in
order before concatenating, changes no other field of `M`'s layers, and
leaves the prefix `L` unchanged. -/
theorem layers_add_mutates_other {α : Type} (L M : List (PLayer α)) :
    Layers.add L M = L ++ Layers.set_zorder L M ∧
    zorders (Layers.set_zorder L M) =
      List.range' (L.length + 1) M.length ∧
    payloads (Layers.set_zorder L M) = payloads M ∧
    (Layers.add L M).take L.length = L ∧
    (Layers.add L M).drop L.length = Layers.set_zorder L M := by
  refine ⟨rfl, ?_, ?_, ?_, ?_⟩
  · rw [Layers.set_zorder, zorders_setZorderAux]
  · rw [Layers.set_zorder, payloads_setZorderAux]
  · rw [Layers.add, List.take_left]
  · rw [Layers.add, List.drop_left]

theorem find?_setColAux_same (n : String) (vs : List Val) :
    ∀ cols : List (String × List Val),
      (setColAux n vs cols).find? (fun p => p.1 = n) = some (n, vs) := by
  intro cols
  induction cols with
  | nil => simp [setColAux]
  | cons p rest ih =>
      obtain ⟨m, c⟩ := p
      by_cases h : m = n
      · simp [setColAux, h]
      · simpa [setColAux, h] using ih

theorem getCol_setCol_same (df : DataFrame) (n : String) (vs : List Val) :
    (df.setCol n vs).getCol n = some vs := by
  simp [DataFrame.getCol, DataFrame.setCol, find?_setColAux_same]

theorem find?_setColAux_other (n : String) (vs : List Val) (m : String)
    (h : m ≠ n) :
    ∀ cols : List (String × List Val),
      (setColAux n vs cols).find? (fun p => p.1 = m) =
        cols.find? (fun p => p.1 = m) := by
  intro cols
  have hnm : ¬(n = m) := fun hEq => h hEq.symm
  induction cols with
  | nil => simp [setColAux, hnm]
  | cons p rest ih =>
      obtain ⟨a, c⟩ := p
      by_cases han : a = n
      · subst han
        simp [setColAux, hnm]
      · by_cases ham : a = m
        · simp [setColAux, han, ham, h]
        · simpa [setColAux, han, ham] using ih

theorem getCol_setCol_other (df : DataFrame) (n : String) (vs : List Val)
    (m : String) (h : m ≠ n) :
    (df.setCol n vs).getCol m = df.getCol m := by
  simp [DataFrame.getCol, DataFrame.setCol, find?_setColAux_other n vs m h]

theorem mem_uniqKeys (a : List Val) (l : List (List Val)) :
    a ∈ uniqKeys l ↔ a ∈ l := by
  induction l with
  | nil => simp [uniqKeys]
  | cons k ks ih =>
      by_cases hak : a = k
      · subst hak
        simp [uniqKeys]
      · simp only [uniqKeys, List.mem_cons, List.mem_filter]
        constructor
        · rintro (h1 | ⟨h2, h3⟩)
          · exact Or.inl h1
          · exact Or.inr (ih.mp h2)
        · rintro (h1 | h2)
          · exact Or.inl h1
          · exact Or.inr ⟨ih.mpr h2, by simpa using hak⟩

theorem nodup_uniqKeys (l : List (List Val)) : (uniqKeys l).Nodup := by
  induction l with
  | nil => simp [uniqKeys]
  | cons k ks ih =>
      refine List.nodup_cons.mpr ⟨?_, ih.filter _⟩
      intro hmem
      have := (List.mem_filter.mp hmem).2
      simp at this

theorem keyIndex_lt (k : List Val) (l : List (List Val)) (h : k ∈ l) :
    keyIndex k l < l.length := by
  induction l with
  | nil => cases h
  | cons a rest ih =>
      by_cases hak : a = k
      · simp [keyIndex, hak]
      · have hk : k ∈ rest := by
          rcases List.mem_cons.mp h with h1 | h2
          · exact absurd h1.symm hak
          · exact h2
        simp only [keyIndex, if_neg hak, List.length_cons]
        exact Nat.succ_lt_succ (ih hk)

theorem keyIndex_inj (a b : List Val) (l : List (List Val)) (ha : a ∈ l)
    (hb : b ∈ l) (h : keyIndex a l = keyIndex b l) : a = b := by
  induction l with
  | nil => cases ha
  | cons c rest ih =>
      by_cases hca : c = a <;> by_cases hcb : c = b
      · rw [← hca, hcb]
      · rw [keyIndex, if_pos hca, keyIndex, if_neg hcb] at h
        exact absurd h.symm (Nat.succ_ne_zero _)
      · rw [keyIndex, if_neg hca, keyIndex, if_pos hcb] at h
        exact absurd h (Nat.succ_ne_zero _)
      · rw [keyIndex, if_neg hca, keyIndex, if_neg hcb] at h
        have ha2 : a ∈ rest := by
          rcases List.mem_cons.mp ha with h1 | h2
          · exact absurd h1.symm hca
          · exact h2
        have hb2 : b ∈ rest := by
          rcases List.mem_cons.mp hb with h1 | h2
          · exact absurd h1.symm hcb
          · exact h2
        exact ih ha2 hb2 (Nat.succ_injective h)

theorem keyIndex_get (l : List (List Val)) (hnd : l.Nodup) (i : Nat)
    (hi : i < l.length) : keyIndex (l.get ⟨i, hi⟩) l = i := by
  induction l generalizing i with
  | nil => cases hi
  | cons c rest ih =>
      cases i with
      | zero => simp [keyIndex]
      | succ n =>
          have hn : n < rest.length := Nat.lt_of_succ_lt_succ hi
          have hmem : rest.get ⟨n, hn⟩ ∈ rest := List.get_mem rest n hn
          have hne : c ≠ rest.get ⟨n, hn⟩ :=
            fun hEq => (List.nodup_cons.mp hnd).1 (hEq ▸ hmem)
          have hget : (c :: rest).get ⟨n + 1, hi⟩ = rest.get ⟨n, hn⟩ := rfl
          rw [hget, keyIndex, if_neg hne, ih (List.nodup_cons.mp hnd).2 n hn]

theorem ninteraction_length (keys : List (List Val)) :
    (ninteraction keys).length = keys.length := by
  simp [ninteraction]

theorem ninteraction_getD (keys : List (List Val)) (i : Nat)
    (hi : i < keys.length) :
    (ninteraction keys).getD i 0 =
      (keyIndex (keys.getD i []) (uniqKeys keys) : Int) + 1 := by
  have h2 : i < (ninteraction keys).length := by rwa [ninteraction_length]
  rw [List.getD_eq_getElem _ _ h2, List.getD_eq_getElem _ _ hi]
  simp [ninteraction]

theorem ninteraction_congr (keys : List (List Val)) (i j : Nat)
    (hi : i < keys.length) (hj : j < keys.length)
    (h : keys.getD i [] = keys.getD j []) :
    (ninteraction keys).getD i 0 = (ninteraction keys).getD j 0 := by
  rw [ninteraction_getD keys i hi, ninteraction_getD keys j hj, h]

theorem getD_mem_of_lt (keys : List (List Val)) (i : Nat)
    (hi : i < keys.length) : keys.getD i [] ∈ keys := by
  rw [List.getD_eq_getElem _ _ hi]
  exact List.getElem_mem hi

theorem ninteraction_inj (keys : List (List Val)) (i j : Nat)
    (hi : i < keys.length) (hj : j < keys.length)
    (h : keys.getD i [] ≠ keys.getD j []) :
    (ninteraction keys).getD i 0 ≠ (ninteraction keys).getD j 0 := by
  intro hEq
  rw [ninteraction_getD keys i hi, ninteraction_getD keys j hj] at hEq
  have hkey : keyIndex (keys.getD i []) (uniqKeys keys) =
      keyIndex (keys.getD j []) (uniqKeys keys) := by omega
  exact h (keyIndex_inj _ _ _
    ((mem_uniqKeys _ _).mpr (getD_mem_of_lt keys i hi))
    ((mem_uniqKeys _ _).mpr (getD_mem_of_lt keys j hj)) hkey)

theorem ninteraction_mem_iff (keys : List (List Val)) (m : Int) :
    m ∈ ninteraction keys ↔
      1 ≤ m ∧ m ≤ (uniqKeys keys).length := by
  constructor
  · intro hm
    rcases List.mem_map.mp hm with ⟨k, hk, rfl⟩
    have h1 : keyIndex k (uniqKeys keys) < (uniqKeys keys).length :=
      keyIndex_lt _ _ ((mem_uniqKeys _ _).mpr hk)
    omega
  · rintro ⟨h1, h2⟩
    have hi : (m - 1).toNat < (uniqKeys keys).length := by omega
    have hmem : (uniqKeys keys).get ⟨(m - 1).toNat, hi⟩ ∈ keys :=
      (mem_uniqKeys _ _).mp (List.get_mem _ _ hi)
    refine List.mem_map.mpr ⟨(uniqKeys keys).get ⟨(m - 1).toNat, hi⟩,
      hmem, ?_⟩
    rw [keyIndex_get (uniqKeys keys) (nodup_uniqKeys keys) _ hi]
    omega

theorem keysOf_length (df : DataFrame) (sel : List String) :
    (keysOf df sel).length = df.nrows := by
  simp [keysOf]

theorem keysOf_getD (df : DataFrame) (sel : List String) (i : Nat)
    (hi : i < df.nrows) : (keysOf df sel).getD i [] = df.rowKey sel i := by
  have h2 : i < (keysOf df sel).length := by rwa [keysOf_length]
  rw [List.getD_eq_getElem _ _ h2]
  simp [keysOf]

theorem ninteraction_keys_spec (df : DataFrame) (sel : List String) :
    (∀ i j, i < df.nrows → j < df.nrows →
      df.rowKey sel i = df.rowKey sel j →
      (ninteraction (keysOf df sel)).getD i 0 =
        (ninteraction (keysOf df sel)).getD j 0) ∧
    (∀ i j, i < df.nrows → j < df.nrows →
      df.rowKey sel i ≠ df.rowKey sel j →
      (ninteraction (keysOf df sel)).getD i 0 ≠
        (ninteraction (keysOf df sel)).getD j 0) ∧
    (∀ m : Int, m ∈ ninteraction (keysOf df sel) ↔
      1 ≤ m ∧ m ≤ (uniqKeys (keysOf df sel)).length) := by
  refine ⟨?_, ?_, fun m => ninteraction_mem_iff _ m⟩
  · intro i j hi hj hk
    exact ninteraction_congr _ i j (by rwa [keysOf_length])
      (by rwa [keysOf_length])
      (by rw [keysOf_getD _ _ _ hi, keysOf_getD _ _ _ hj]; exact hk)
  · intro i j hi hj hk
    exact ninteraction_inj _ i j (by rwa [keysOf_length])
      (by rwa [keysOf_length])
      (by rw [keysOf_getD _ _ _ hi, keysOf_getD _ _ _ hj]; exact hk)

/-- C2: `add_group` is total and row-order preserving: it assigns one group
id per row, changes no column other than `group`, gives rows with identical
tuples over the selected key columns equal ids and rows with differing
tuples different ids, and when the key selection is non-empty the assigned
ids are exactly `1..K` for `K` the number of distinct tuples. -/
theorem add_group_total_consistent (df : DataFrame) :
    (groupIds df).length = df.nrows ∧
    (∀ name, name ≠ "group" →
      (add_group df).getCol name = df.getCol name) ∧
    (df.nrows ≠ 0 →
      (add_group df).getCol "group" = some ((groupIds df).map Val.vInt)) ∧
    (∀ i j, i < df.nrows → j < df.nrows →
      df.rowKey (selectedColumns df) i = df.rowKey (selectedColumns df) j →
      (groupIds df).getD i 0 = (groupIds df).getD j 0) ∧
    (∀ i j, i < df.nrows → j < df.nrows →
      df.rowKey (selectedColumns df) i ≠ df.rowKey (selectedColumns df) j →
      (groupIds df).getD i 0 ≠ (groupIds df).getD j 0) ∧
    (selectedColumns df ≠ [] → ∀ m : Int,
      m ∈ groupIds df ↔
        1 ≤ m ∧ m ≤ (uniqKeys (keysOf df (selectedColumns df))).length) := by
  by_cases hg : df.hasCol "group"
  · have hgi : groupIds df = ninteraction (keysOf df ["group"]) := by
      simp [groupIds, hg]
    have hsel : selectedColumns df = ["group"] := by
      simp [selectedColumns, hg]
    have hspec := ninteraction_keys_spec df ["group"]
    refine ⟨?_, ?_, ?_, ?_, ?_, ?_⟩
    · rw [hgi, ninteraction_length, keysOf_length]
    · intro name hname
      by_cases h0 : df.nrows = 0
      · simp [add_group, h0]
      · rw [show add_group df = df.setCol "group"
            ((ninteraction (keysOf df ["group"])).map Val.vInt) by
          simp [add_group, h0, hg]]
        exact getCol_setCol_other _ _ _ _ hname
    · intro h0
      rw [show add_group df = df.setCol "group"
            ((ninteraction (keysOf df ["group"])).map Val.vInt) by
          simp [add_group, h0, hg], hgi]
      exact getCol_setCol_same _ _ _
    · rw [hsel, hgi]; exact hspec.1
    · rw [hsel, hgi]; exact hspec.2.1
    · rw [hsel, hgi]; exact fun _ => hspec.2.2
  · by_cases hd : discrete_columns df ["label"] = []
    · have hgi : groupIds df = List.replicate df.nrows NO_GROUP := by
        simp [groupIds, hg, hd]
      have hsel : selectedColumns df = [] := by
        simp [selectedColumns, hg, hd]
      have hrep : ∀ i, i < df.nrows →
          (List.replicate df.nrows NO_GROUP).getD i 0 = NO_GROUP := by
        intro i hi
        rw [List.getD_eq_getElem _ _ (by simpa using hi)]
        simp
      refine ⟨?_, ?_, ?_, ?_, ?_, ?_⟩
      · rw [hgi, List.length_replicate]
      · intro name hname
        by_cases h0 : df.nrows = 0
        · simp [add_group, h0]
        · rw [show add_group df =
              df.setColScalar "group" (Val.vInt NO_GROUP) by
            simp [add_group, h0, hg, hd]]
          exact getCol_setCol_other _ _ _ _ hname
      · intro h0
        rw [show add_group df =
              df.setColScalar "group" (Val.vInt NO_GROUP) by
            simp [add_group, h0, hg, hd], hgi, List.map_replicate]
        exact getCol_setCol_same _ _ _
      · intro i j hi hj _
        rw [hgi, hrep i hi, hrep j hj]
      · intro i j _ _ hk
        rw [hsel] at hk
        exact absurd rfl hk
      · intro hne
        rw [hsel] at hne
        exact absurd rfl hne
    · have hgi : groupIds df =
          ninteraction (keysOf df (discrete_columns df ["label"])) := by
        simp [groupIds, hg, hd]
      have hsel : selectedColumns df = discrete_columns df ["label"] := by
        simp [selectedColumns, hg]
      have hspec := ninteraction_keys_spec df (discrete_columns df ["label"])
      refine ⟨?_, ?_, ?_, ?_, ?_, ?_⟩
      · rw [hgi, ninteraction_length, keysOf_length]
      · intro name hname
        by_cases h0 : df.nrows = 0
        · simp [add_group, h0]
        · rw [show add_group df = df.setCol "group"
              ((ninteraction
                (keysOf df (discrete_columns df ["label"]))).map Val.vInt) by
            simp [add_group, h0, hg, hd]]
          exact getCol_setCol_other _ _ _ _ hname
      · intro h0
        rw [show add_group df = df.setCol "group"
              ((ninteraction
                (keysOf df (discrete_columns df ["label"]))).map Val.vInt) by
            simp [add_group, h0, hg, hd], hgi]
        exact getCol_setCol_same _ _ _
      · rw [hsel, hgi]; exact hspec.1
      · rw [hsel, hgi]; exact hspec.2.1
      · rw [hsel, hgi]; exact fun _ => hspec.2.2

/-- Witness for C2 at the spec's end-to-end dataset
`x = [1,2,3]`, `c = [a,b,a]`. -/
theorem add_group_total_consistent_witness :
    ("x" : String) ≠ "group" ∧
    (DataFrame.mk 3 [("x", [Val.vInt 1, Val.vInt 2, Val.vInt 3]),
        ("c", [Val.vStr "a", Val.vStr "b", Val.vStr "a"])]).nrows ≠ 0 ∧
    (add_group (DataFrame.mk 3
        [("x", [Val.vInt 1, Val.vInt 2, Val.vInt 3]),
         ("c", [Val.vStr "a", Val.vStr "b", Val.vStr "a"])])).getCol "x" =
      (DataFrame.mk 3 [("x", [Val.vInt 1, Val.vInt 2, Val.vInt 3]),
        ("c", [Val.vStr "a", Val.vStr "b", Val.vStr "a"])]).getCol "x" ∧
    (add_group (DataFrame.mk 3
        [("x", [Val.vInt 1, Val.vInt 2, Val.vInt 3]),
         ("c", [Val.vStr "a", Val.vStr "b", Val.vStr "a"])])).getCol
        "group" =
      some ((groupIds (DataFrame.mk 3
        [("x", [Val.vInt 1, Val.vInt 2, Val.vInt 3]),
         ("c", [Val.vStr "a", Val.vStr "b", Val.vStr "a"])])).map
        Val.vInt) :=
  ⟨by decide, by decide,
   (add_group_total_consistent (DataFrame.mk 3
      [("x", [Val.vInt 1, Val.vInt 2, Val.vInt 3]),
       ("c", [Val.vStr "a", Val.vStr "b", Val.vStr "a"])])).2.1 "x"
     (by decide),
   (add_group_total_consistent (DataFrame.mk 3
      [("x", [Val.vInt 1, Val.vInt 2, Val.vInt 3]),
       ("c", [Val.vStr "a", Val.vStr "b", Val.vStr "a"])])).2.2.1
     (by decide)⟩

theorem processAll_append (env : EvalEnv) (data : DataFrame)
    (l1 l2 : List (String × AesVal)) (st : DataFrame × Bool) :
    processAll env data (l1 ++ l2) st =
      (processAll env data l1 st).bind (processAll env data l2) := by
  induction l1 generalizing st with
  | nil => simp [processAll, Except.bind]
  | cons p rest ih =>
      obtain ⟨ae, v⟩ := p
      simp only [List.cons_append, processAll]
      cases h : processOne env data st ae v with
      | error e => simp [Except.bind]
      | ok st2 => simp [Except.bind, ih]

theorem assignEvalResult_ok (evaled : DataFrame) (ae expr : String)
    (r : EvalResult) (d : DataFrame)
    (h : assignEvalResult evaled ae expr r = .ok d) :
    ∃ vs, d = evaled.setCol ae vs := by
  cases r with
  | scalar v =>
      simp only [assignEvalResult] at h
      exact ⟨_, (Except.ok.injEq _ _ ▸ h).symm⟩
  | vector vs =>
      simp only [assignEvalResult] at h
      by_cases hl : vs.length = evaled.nrows
      · rw [if_pos hl] at h
        exact ⟨vs, (Except.ok.injEq _ _ ▸ h).symm⟩
      · rw [if_neg hl] at h
        cases h
  | bad ty => cases h

theorem processOne_ok (env : EvalEnv) (data : DataFrame)
    (st : DataFrame × Bool) (ae : String) (v : AesVal)
    (st2 : DataFrame × Bool) (h : processOne env data st ae v = .ok st2) :
    (∃ vs, st2.1 = st.1.setCol ae vs) ∧ st2.2 = (st.2 || v.isVec) := by
  cases v with
  | str s =>
      simp only [processOne] at h
      by_cases hc : data.hasCol s
      · rw [if_pos hc] at h
        have h2 := (Except.ok.injEq _ _ ▸ h)
        refine ⟨⟨(data.getCol s).getD [], ?_⟩, ?_⟩
        · rw [← h2]
        · rw [← h2]
          simp [AesVal.isVec]
      · rw [if_neg hc] at h
        cases he : env s data with
        | error e => rw [he] at h; cases h
        | ok r =>
            simp only [he] at h
            cases ha : assignEvalResult st.1 ae s r with
            | error e2 => simp only [ha, Except.map] at h; cases h
            | ok d =>
                simp only [ha, Except.map] at h
                have h2 := (Except.ok.injEq _ _ ▸ h)
                obtain ⟨vs, hvs⟩ := assignEvalResult_ok st.1 ae s r d ha
                refine ⟨⟨vs, ?_⟩, ?_⟩
                · rw [← h2, ← hvs]
                · rw [← h2]
                  simp [AesVal.isVec]
  | vec vs =>
      simp only [processOne] at h
      by_cases h1 : data.nrows ≠ 0 ∧ vs.length ≠ data.nrows ∧
          vs.length ≠ 1
      · rw [if_pos h1] at h; cases h
      · rw [if_neg h1] at h
        by_cases h2 : vs.length = 1
        · rw [if_pos h2] at h
          have h3 := (Except.ok.injEq _ _ ▸ h)
          refine ⟨⟨List.replicate st.1.nrows (vs.headD default), ?_⟩, ?_⟩
          · rw [← h3]; rfl
          · rw [← h3]
            simp [AesVal.isVec]
        · rw [if_neg h2] at h
          by_cases h4 : vs.length = st.1.nrows
          · rw [if_pos h4] at h
            have h3 := (Except.ok.injEq _ _ ▸ h)
            refine ⟨⟨vs, ?_⟩, ?_⟩
            · rw [← h3]
            · rw [← h3]
              simp [AesVal.isVec]
          · rw [if_neg h4] at h; cases h
  | num v =>
      have h2 := (Except.ok.injEq _ _ ▸ h)
      refine ⟨⟨List.replicate st.1.nrows v, ?_⟩, ?_⟩
      · rw [← h2]; rfl
      · rw [← h2]
        simp [AesVal.isVec]
  | unsupported => cases h

theorem processAll_ok (env : EvalEnv) (data : DataFrame)
    (l : List (String × AesVal)) (st st2 : DataFrame × Bool)
    (h : processAll env data l st = .ok st2) :
    (∀ m, m ∉ l.map Prod.fst → st2.1.getCol m = st.1.getCol m) ∧
    st2.1.nrows = st.1.nrows ∧ st2.2 = (st.2 || hasVecParam l) := by
  induction l generalizing st with
  | nil =>
      have h2 := (Except.ok.injEq _ _ ▸ h)
      rw [← h2]
      simp [hasVecParam]
  | cons p rest ih =>
      obtain ⟨ae, v⟩ := p
      simp only [processAll] at h
      cases h1 : processOne env data st ae v with
      | error e => rw [h1] at h; cases h
      | ok st3 =>
          rw [h1] at h
          simp only [Except.bind] at h
          obtain ⟨⟨vs, hset⟩, hflag⟩ := processOne_ok env data st ae v st3 h1
          obtain ⟨hcols, hrows, hfl2⟩ := ih st3 h
          refine ⟨?_, ?_, ?_⟩
          · intro m hm
            simp only [List.map_cons, List.mem_cons, not_or] at hm
            rw [hcols m hm.2, hset, getCol_setCol_other _ _ _ _ hm.1]
          · rw [hrows, hset]; rfl
          · rw [hfl2, hflag]
            simp [hasVecParam, Bool.or_assoc]

theorem getCol_widenInts (df : DataFrame) (m : String) :
    (widenInts df).getCol m = (df.getCol m).map widenCol := by
  simp only [widenInts, DataFrame.getCol, List.find?_map]
  rw [show ((fun p : String × List Val => decide (p.1 = m)) ∘
      (fun p : String × List Val => (p.1, widenCol p.2))) =
      (fun p : String × List Val => decide (p.1 = m)) from rfl]
  cases df.cols.find? (fun p => decide (p.1 = m)) <;> rfl

theorem panelStep_ok_other (data evaled : DataFrame) (b : Bool)
    (d : DataFrame) (h : panelStep data evaled b = .ok d) (m : String)
    (hm : m ≠ "PANEL") : d.getCol m = evaled.getCol m := by
  simp only [panelStep] at h
  by_cases hc : data.nrows = 0 ∧ b = true
  · rw [if_pos hc] at h
    have h2 := (Except.ok.injEq _ _ ▸ h)
    rw [← h2]
    exact getCol_setCol_other _ _ _ _ hm
  · rw [if_neg hc] at h
    cases hp : data.getCol "PANEL" with
    | none => rw [hp] at h; cases h
    | some c =>
        rw [hp] at h
        have h2 := (Except.ok.injEq _ _ ▸ h)
        rw [← h2]
        exact getCol_setCol_other _ _ _ _ hm

theorem panelStep_ok_panel (data evaled : DataFrame) (b : Bool)
    (d : DataFrame) (h : panelStep data evaled b = .ok d) :
    (data.nrows = 0 ∧ b = true →
      d.getCol "PANEL" =
        some (List.replicate evaled.nrows (Val.vInt 1))) ∧
    (¬(data.nrows = 0 ∧ b = true) →
      d.getCol "PANEL" = data.getCol "PANEL") := by
  simp only [panelStep] at h
  by_cases hc : data.nrows = 0 ∧ b = true
  · rw [if_pos hc] at h
    have h2 := (Except.ok.injEq _ _ ▸ h)
    refine ⟨fun _ => ?_, fun hn => absurd hc hn⟩
    rw [← h2]
    exact getCol_setCol_same _ _ _
  · rw [if_neg hc] at h
    cases hp : data.getCol "PANEL" with
    | none => rw [hp] at h; cases h
    | some c =>
        rw [hp] at h
        have h2 := (Except.ok.injEq _ _ ▸ h)
        refine ⟨fun hy => absurd hy hc, fun _ => ?_⟩
        rw [← h2]
        exact getCol_setCol_same _ _ _

theorem add_group_getCol_other (df : DataFrame) (m : String)
    (hm : m ≠ "group") : (add_group df).getCol m = df.getCol m := by
  unfold add_group
  split_ifs with h0 hg hd
  · rfl
  · exact getCol_setCol_other _ _ _ _ hm
  · exact getCol_setCol_other _ _ _ _ hm
  · exact getCol_setCol_other _ _ _ _ hm

theorem widenCol_replicate_of_int (n : Nat) (v : Val)
    (hv : v.isInt = true) :
    widenCol (List.replicate n v) = List.replicate n (widenVal v) := by
  have hall : (List.replicate n v).all Val.isInt = true := by
    rw [List.all_eq_true]
    intro x hx
    rw [List.eq_of_mem_replicate hx]
    exact hv
  rw [widenCol, if_pos hall, List.map_replicate]

theorem widenCol_replicate_of_not_int (n : Nat) (v : Val)
    (hv : v.isInt = false) (hn : n ≠ 0) :
    widenCol (List.replicate n v) = List.replicate n v := by
  have hall : ¬((List.replicate n v).all Val.isInt = true) := by
    rw [List.all_eq_true]
    intro hcontra
    have := hcontra v (List.mem_replicate.mpr ⟨hn, rfl⟩)
    rw [hv] at this
    cases this
  rw [widenCol, if_neg hall]

/-- C3: on a non-empty dataset, an aesthetic mapped to a vector whose
length is neither the row count nor 1 makes `compute_aesthetics` raise the
length-mismatch `GgplotError`, provided the aesthetics before it resolve
without error. -/
theorem compute_aesthetics_length_mismatch (env : EvalEnv)
    (data : DataFrame) (pre rest : List (String × AesVal)) (ae : String)
    (vs : List Val) (st : DataFrame × Bool)
    (h0 : data.nrows ≠ 0) (hn : vs.length ≠ data.nrows)
    (h1 : vs.length ≠ 1)
    (hpre : processAll env data pre (data.emptyLike, false) = .ok st) :
    computeAesthetics env data (pre ++ (ae, AesVal.vec vs) :: rest) none =
      .error .lengthMismatch := by
  unfold computeAesthetics
  rw [show applyGroupOverride (pre ++ (ae, AesVal.vec vs) :: rest) none =
      pre ++ (ae, AesVal.vec vs) :: rest from rfl,
    processAll_append, hpre]
  have hone : processOne env data st ae (AesVal.vec vs) =
      .error .lengthMismatch := by
    simp [processOne, h0, hn, h1]
  simp [processAll, Except.bind, hone]

/-- Witness for C3: a length-3 vector aesthetic against a 5-row dataset. -/
theorem compute_aesthetics_length_mismatch_witness :
    (DataFrame.mk 5 [("PANEL", List.replicate 5 (Val.vInt 1))]).nrows ≠
        0 ∧
    ([Val.vInt 1, Val.vInt 2, Val.vInt 3] : List Val).length ≠
      (DataFrame.mk 5 [("PANEL", List.replicate 5 (Val.vInt 1))]).nrows ∧
    ([Val.vInt 1, Val.vInt 2, Val.vInt 3] : List Val).length ≠ 1 ∧
    processAll (fun _ _ => Except.error "NameError")
      (DataFrame.mk 5 [("PANEL", List.replicate 5 (Val.vInt 1))]) []
      ((DataFrame.mk 5
        [("PANEL", List.replicate 5 (Val.vInt 1))]).emptyLike, false) =
      .ok ((DataFrame.mk 5
        [("PANEL", List.replicate 5 (Val.vInt 1))]).emptyLike, false) ∧
    computeAesthetics (fun _ _ => Except.error "NameError")
      (DataFrame.mk 5 [("PANEL", List.replicate 5 (Val.vInt 1))])
      ([] ++ ("x", AesVal.vec [Val.vInt 1, Val.vInt 2, Val.vInt 3]) :: [])
      none = .error .lengthMismatch :=
  ⟨by decide, by decide, by decide, rfl,
   compute_aesthetics_length_mismatch (fun _ _ => Except.error "NameError")
     (DataFrame.mk 5 [("PANEL", List.replicate 5 (Val.vInt 1))]) [] []
     "x" [Val.vInt 1, Val.vInt 2, Val.vInt 3] _ (by decide) (by decide)
     (by decide) rfl⟩

/-- C5: an aesthetic mapped to a string that is not a column name and whose
evaluation fails raises the `_TPL_EVAL_FAIL` `GgplotError`, carrying the
aesthetic name, the expression text and the underlying cause, provided the
aesthetics before it resolve without error. -/
theorem compute_aesthetics_eval_error (env : EvalEnv) (data : DataFrame)
    (pre rest : List (String × AesVal)) (ae s cause : String)
    (st : DataFrame × Bool)
    (hcol : data.hasCol s = false)
    (heval : env s data = .error cause)
    (hpre : processAll env data pre (data.emptyLike, false) = .ok st) :
    computeAesthetics env data (pre ++ (ae, AesVal.str s) :: rest) none =
      .error (.evalFail ae s cause) := by
  unfold computeAesthetics
  rw [show applyGroupOverride (pre ++ (ae, AesVal.str s) :: rest) none =
      pre ++ (ae, AesVal.str s) :: rest from rfl,
    processAll_append, hpre]
  have hone : processOne env data st ae (AesVal.str s) =
      .error (.evalFail ae s cause) := by
    simp [processOne, hcol, heval]
  simp [processAll, Except.bind, hone]

/-- Witness for C5: an expression referencing an undefined name. -/
theorem compute_aesthetics_eval_error_witness :
    (DataFrame.mk 2 [("PANEL", List.replicate 2 (Val.vInt 1))]).hasCol
        "undefined_name" = false ∧
    (fun _ _ => Except.error "NameError" : EvalEnv) "undefined_name"
      (DataFrame.mk 2 [("PANEL", List.replicate 2 (Val.vInt 1))]) =
      .error "NameError" ∧
    processAll (fun _ _ => Except.error "NameError")
      (DataFrame.mk 2 [("PANEL", List.replicate 2 (Val.vInt 1))]) []
      ((DataFrame.mk 2
        [("PANEL", List.replicate 2 (Val.vInt 1))]).emptyLike, false) =
      .ok ((DataFrame.mk 2
        [("PANEL", List.replicate 2 (Val.vInt 1))]).emptyLike, false) ∧
    computeAesthetics (fun _ _ => Except.error "NameError")
      (DataFrame.mk 2 [("PANEL", List.replicate 2 (Val.vInt 1))])
      ([] ++ ("x", AesVal.str "undefined_name") :: []) none =
      .error (.evalFail "x" "undefined_name" "NameError") :=
  ⟨by decide, rfl, rfl,
   compute_aesthetics_eval_error (fun _ _ => Except.error "NameError")
     (DataFrame.mk 2 [("PANEL", List.replicate 2 (Val.vInt 1))]) [] []
     "x" "undefined_name" "NameError" _ (by decide) rfl rfl⟩

/-- C4: on a non-empty dataset a length-1 vector aesthetic is unwrapped to
its single element and stored as a broadcast scalar: when
`compute_aesthetics` succeeds, the column for that aesthetic holds that one
value (int-widened to float when it is an int) in every one of the `N`
rows. -/
theorem compute_aesthetics_scalar_broadcast (env : EvalEnv)
    (data : DataFrame) (pre rest : List (String × AesVal)) (ae : String)
    (v : Val) (df : DataFrame)
    (h0 : data.nrows ≠ 0)
    (hnotin : ae ∉ rest.map Prod.fst)
    (hP : ae ≠ "PANEL") (hG : ae ≠ "group")
    (hres : computeAesthetics env data
      (pre ++ (ae, AesVal.vec [v]) :: rest) none = .ok df) :
    (v.isInt = true →
      df.getCol ae = some (List.replicate data.nrows (widenVal v))) ∧
    (v.isInt = false →
      df.getCol ae = some (List.replicate data.nrows v)) := by
  unfold computeAesthetics at hres
  rw [show applyGroupOverride (pre ++ (ae, AesVal.vec [v]) :: rest) none =
      pre ++ (ae, AesVal.vec [v]) :: rest from rfl,
    processAll_append] at hres
  cases hpre : processAll env data pre (data.emptyLike, false) with
  | error e => rw [hpre] at hres; cases hres
  | ok st =>
      rw [hpre] at hres
      simp only [Except.bind] at hres
      have hone : processOne env data st ae (AesVal.vec [v]) =
          .ok (st.1.setColScalar ae v, true) := by
        simp [processOne, h0]
      rw [processAll, hone] at hres
      simp only [Except.bind] at hres
      cases hrest : processAll env data rest (st.1.setColScalar ae v, true)
          with
      | error e => rw [hrest] at hres; cases hres
      | ok st4 =>
          rw [hrest] at hres
          simp only [Except.bind] at hres
          obtain ⟨hcols4, hrows4, _⟩ :=
            processAll_ok env data rest _ st4 hrest
          have hae4 : st4.1.getCol ae =
              some (List.replicate st.1.nrows v) := by
            rw [hcols4 ae hnotin]
            exact getCol_setCol_same _ _ _
          obtain ⟨_, hrowsPre, _⟩ := processAll_ok env data pre _ st hpre
          have hnr : st.1.nrows = data.nrows := hrowsPre
          cases hps : panelStep data (widenInts st4.1) st4.2 with
          | error e => rw [hps] at hres; cases hres
          | ok d2 =>
              rw [hps] at hres
              simp only [Except.map] at hres
              have hdf : df = add_group d2 :=
                ((Except.ok.injEq _ _ ▸ hres)).symm
              have h1 : df.getCol ae = d2.getCol ae := by
                rw [hdf]
                exact add_group_getCol_other d2 ae hG
              have h2 : d2.getCol ae = (widenInts st4.1).getCol ae :=
                panelStep_ok_other _ _ _ _ hps ae hP
              have h3 : (widenInts st4.1).getCol ae =
                  (st4.1.getCol ae).map widenCol := getCol_widenInts _ _
              rw [h1, h2, h3, hae4, hnr]
              constructor
              · intro hint
                simp only [Option.map]
                rw [widenCol_replicate_of_int _ _ hint]
              · intro hnint
                simp only [Option.map]
                rw [widenCol_replicate_of_not_int _ _ hnint h0]

/-- Witness for C4: `x = [7]` broadcast over a 3-row dataset. -/
theorem compute_aesthetics_scalar_broadcast_witness :
    (DataFrame.mk 3 [("PANEL", List.replicate 3 (Val.vInt 1))]).nrows ≠
        0 ∧
    ("x" : String) ∉ ([] : List (String × AesVal)).map Prod.fst ∧
    ("x" : String) ≠ "PANEL" ∧ ("x" : String) ≠ "group" ∧
    computeAesthetics (fun _ _ => Except.error "NameError")
      (DataFrame.mk 3 [("PANEL", List.replicate 3 (Val.vInt 1))])
      ([] ++ ("x", AesVal.vec [Val.vInt 7]) :: []) none =
      .ok (DataFrame.mk 3 [("x", List.replicate 3 (Val.vFloat 7)),
        ("PANEL", List.replicate 3 (Val.vInt 1)),
        ("group", List.replicate 3 (Val.vInt (-1)))]) ∧
    ((Val.vInt 7).isInt = true →
      (DataFrame.mk 3 [("x", List.replicate 3 (Val.vFloat 7)),
        ("PANEL", List.replicate 3 (Val.vInt 1)),
        ("group", List.replicate 3 (Val.vInt (-1)))]).getCol "x" =
      some (List.replicate
        (DataFrame.mk 3
          [("PANEL", List.replicate 3 (Val.vInt 1))]).nrows
        (widenVal (Val.vInt 7)))) :=
  ⟨by decide, by decide, by decide, by decide, rfl,
   (compute_aesthetics_scalar_broadcast
     (fun _ _ => Except.error "NameError")
     (DataFrame.mk 3 [("PANEL", List.replicate 3 (Val.vInt 1))]) [] []
     "x" (Val.vInt 7)
     (DataFrame.mk 3 [("x", List.replicate 3 (Val.vFloat 7)),
       ("PANEL", List.replicate 3 (Val.vInt 1)),
       ("group", List.replicate 3 (Val.vInt (-1)))])
     (by decide) (by decide) (by decide) (by decide) rfl).1⟩

/-- C6: when `compute_aesthetics` succeeds, the resolved `PANEL` column is
the constant 1 exactly when the source dataset has 0 rows and some
aesthetic was a literal vector (aesthetic parameters); otherwise it is
copied from the source dataset's `PANEL` column. -/
theorem compute_aesthetics_panel (env : EvalEnv) (data : DataFrame)
    (aes : List (String × AesVal)) (df : DataFrame)
    (hres : computeAesthetics env data aes none = .ok df) :
    (data.nrows = 0 ∧ hasVecParam aes = true →
      df.getCol "PANEL" =
        some (List.replicate data.nrows (Val.vInt 1))) ∧
    (¬(data.nrows = 0 ∧ hasVecParam aes = true) →
      df.getCol "PANEL" = data.getCol "PANEL") := by
  unfold computeAesthetics at hres
  rw [show applyGroupOverride aes none = aes from rfl] at hres
  cases hpre : processAll env data aes (data.emptyLike, false) with
  | error e => rw [hpre] at hres; cases hres
  | ok st =>
      rw [hpre] at hres
      simp only [Except.bind] at hres
      obtain ⟨_, hrows, hflag⟩ := processAll_ok env data aes _ st hpre
      have hflag2 : st.2 = hasVecParam aes := by
        rw [hflag]; exact Bool.false_or _
      cases hps : panelStep data (widenInts st.1) st.2 with
      | error e => rw [hps] at hres; cases hres
      | ok d2 =>
          rw [hps] at hres
          simp only [Except.map] at hres
          have hdf : df = add_group d2 :=
            ((Except.ok.injEq _ _ ▸ hres)).symm
          have hPg : df.getCol "PANEL" = d2.getCol "PANEL" := by
            rw [hdf]
            exact add_group_getCol_other d2 "PANEL" (by decide)
          obtain ⟨hthen, helse⟩ := panelStep_ok_panel data _ _ _ hps
          have hnr : (widenInts st.1).nrows = data.nrows := hrows
          constructor
          · intro hy
            rw [hPg, hthen ⟨hy.1, by rw [hflag2]; exact hy.2⟩, hnr]
          · intro hn
            rw [hPg, helse ?_]
            intro hcontra
            exact hn ⟨hcontra.1, by rw [← hflag2]; exact hcontra.2⟩

/-- Witness for C6: the spec's empty-dataset scenario, `x = [5]` against a
0-row dataset. -/
theorem compute_aesthetics_panel_witness :
    computeAesthetics (fun _ _ => Except.error "NameError")
      (DataFrame.mk 0 []) [("x", AesVal.vec [Val.vInt 5])] none =
      .ok (DataFrame.mk 0 [("x", []), ("PANEL", [])]) ∧
    ((DataFrame.mk 0 []).nrows = 0 ∧
      hasVecParam [("x", AesVal.vec [Val.vInt 5])] = true) ∧
    (DataFrame.mk 0 [("x", []), ("PANEL", [])]).getCol "PANEL" =
      some (List.replicate (DataFrame.mk 0 []).nrows (Val.vInt 1)) :=
  ⟨rfl, by decide,
   (compute_aesthetics_panel (fun _ _ => Except.error "NameError")
     (DataFrame.mk 0 []) [("x", AesVal.vec [Val.vInt 5])]
     (DataFrame.mk 0 [("x", []), ("PANEL", [])]) rfl).1 (by decide)⟩

theorem colNames_setColAux (n : String) (vs : List Val) :
    ∀ cols : List (String × List Val),
      (setColAux n vs cols).map Prod.fst =
        if n ∈ cols.map Prod.fst then cols.map Prod.fst
        else cols.map Prod.fst ++ [n] := by
  intro cols
  induction cols with
  | nil => simp [setColAux]
  | cons p rest ih =>
      obtain ⟨m, c⟩ := p
      by_cases hmn : m = n
      · simp [setColAux, hmn]
      · simp only [setColAux, if_neg hmn, List.map_cons]
        rw [ih]
        by_cases hmem : n ∈ rest.map Prod.fst
        · rw [if_pos hmem, if_pos (List.mem_cons.mpr (Or.inr hmem))]
        · rw [if_neg hmem, if_neg ?_, List.cons_append]
          intro hcontra
          rcases List.mem_cons.mp hcontra with h1 | h2
          · exact hmn h1.symm
          · exact hmem h2

theorem mem_colNames_setCol (df : DataFrame) (n : String) (vs : List Val)
    (m : String) :
    m ∈ (df.setCol n vs).colNames ↔ m ∈ df.colNames ∨ m = n := by
  show m ∈ (setColAux n vs df.cols).map Prod.fst ↔ _
  rw [colNames_setColAux]
  by_cases hmem : n ∈ df.cols.map Prod.fst
  · rw [if_pos hmem]
    constructor
    · exact fun h => Or.inl h
    · rintro (h | h)
      · exact h
      · rw [h]; exact hmem
  · rw [if_neg hmem, List.mem_append, List.mem_singleton]
    rfl

theorem nodup_colNames_setCol (df : DataFrame) (n : String) (vs : List Val)
    (h : df.colNames.Nodup) : (df.setCol n vs).colNames.Nodup := by
  show ((setColAux n vs df.cols).map Prod.fst).Nodup
  rw [colNames_setColAux]
  by_cases hmem : n ∈ df.cols.map Prod.fst
  · rw [if_pos hmem]; exact h
  · rw [if_neg hmem]
    rw [List.nodup_append]
    exact ⟨h, List.nodup_singleton n, by
      intro a ha hb
      rw [List.mem_singleton] at hb
      exact hmem (hb ▸ ha)⟩

theorem nodup_map_inj {α β : Type} (f : α → β) (l : List α)
    (h : (l.map f).Nodup) (a b : α) (ha : a ∈ l) (hb : b ∈ l)
    (hf : f a = f b) : a = b := by
  induction l with
  | nil => cases ha
  | cons c rest ih =>
      rw [List.map_cons, List.nodup_cons] at h
      rcases List.mem_cons.mp ha with ha1 | ha2 <;>
        rcases List.mem_cons.mp hb with hb1 | hb2
      · rw [ha1, hb1]
      · exfalso
        apply h.1
        rw [← ha1, hf]
        exact List.mem_map_of_mem f hb2
      · exfalso
        apply h.1
        rw [← hb1, ← hf]
        exact List.mem_map_of_mem f ha2
      · exact ih h.2 ha2 hb2

theorem buildStatData_ok (data : DataFrame) :
    ∀ (pairs : List (String × String)) (acc sd : DataFrame),
      buildStatData data pairs acc = .ok sd →
      (acc.colNames.Nodup → sd.colNames.Nodup) ∧
      (∀ m, m ∈ sd.colNames →
        m ∈ acc.colNames ∨ ∃ p ∈ pairs, p.1 = m ∧ p.1 ≠ p.2) := by
  intro pairs
  induction pairs with
  | nil =>
      intro acc sd h
      have h2 : acc = sd := Except.ok.injEq _ _ ▸ h
      rw [← h2]
      exact ⟨id, fun m hm => Or.inl hm⟩
  | cons p rest ih =>
      intro acc sd h
      obtain ⟨ae, src⟩ := p
      simp only [buildStatData] at h
      by_cases hae : ae = src
      · rw [if_pos hae] at h
        obtain ⟨h1, h2⟩ := ih acc sd h
        refine ⟨h1, fun m hm => ?_⟩
        rcases h2 m hm with hacc | ⟨q, hq, hq1, hq2⟩
        · exact Or.inl hacc
        · exact Or.inr ⟨q, List.mem_cons.mpr (Or.inr hq), hq1, hq2⟩
      · rw [if_neg hae] at h
        cases hc : data.getCol src with
        | none => rw [hc] at h; cases h
        | some c =>
            rw [hc] at h
            obtain ⟨h1, h2⟩ := ih (acc.setCol ae c) sd h
            refine ⟨fun hnd => h1 (nodup_colNames_setCol _ _ _ hnd),
              fun m hm => ?_⟩
            rcases h2 m hm with hacc | ⟨q, hq, hq1, hq2⟩
            · rcases (mem_colNames_setCol _ _ _ _).mp hacc with h3 | h3
              · exact Or.inl h3
              · exact Or.inr ⟨(ae, src), List.mem_cons.mpr (Or.inl rfl),
                  h3.symm, hae⟩
            · exact Or.inr ⟨q, List.mem_cons.mpr (Or.inr hq), hq1, hq2⟩

theorem concatCols_colNames (a b : DataFrame) :
    (concatCols a b).colNames = a.colNames ++ b.colNames := by
  simp [concatCols, DataFrame.colNames]

theorem processOne_ne_lengthMismatch (env : EvalEnv) (data : DataFrame)
    (st : DataFrame × Bool) (ae : String) (v : AesVal)
    (h0 : data.nrows = 0) :
    processOne env data st ae v ≠ .error .lengthMismatch := by
  cases v with
  | str s =>
      simp only [processOne]
      by_cases hc : data.hasCol s
      · simp [hc]
      · rw [if_neg hc]
        cases he : env s data with
        | error e => simp
        | ok r =>
            cases r with
            | scalar w => simp [assignEvalResult, Except.map]
            | vector ws =>
                simp only [assignEvalResult]
                by_cases hl : ws.length = st.1.nrows
                · simp [hl, Except.map]
                · simp [hl, Except.map]
            | bad ty => simp [assignEvalResult, Except.map]
  | vec vs =>
      simp only [processOne]
      rw [if_neg (by simp [h0])]
      by_cases h2 : vs.length = 1
      · simp [h2]
      · rw [if_neg h2]
        by_cases h4 : vs.length = st.1.nrows
        · simp [h4]
        · simp [h4]
  | num v => simp [processOne]
  | unsupported => simp [processOne]

theorem processAll_ne_lengthMismatch (env : EvalEnv) (data : DataFrame)
    (l : List (String × AesVal)) (st : DataFrame × Bool)
    (h0 : data.nrows = 0) :
    processAll env data l st ≠ .error .lengthMismatch := by
  induction l generalizing st with
  | nil => simp [processAll]
  | cons p rest ih =>
      obtain ⟨ae, v⟩ := p
      simp only [processAll]
      cases h1 : processOne env data st ae v with
      | error e =>
          simp only [Except.bind]
          intro hEq
          have he : e = .lengthMismatch := (Except.error.injEq _ _ ▸ hEq)
          exact processOne_ne_lengthMismatch env data st ae v h0
            (he ▸ h1)
      | ok st3 =>
          simp only [Except.bind]
          exact ih st3

theorem panelStep_error_keyError (data evaled : DataFrame) (b : Bool)
    (e : Err) (h : panelStep data evaled b = .error e) :
    e = .keyError "PANEL" := by
  simp only [panelStep] at h
  by_cases hc : data.nrows = 0 ∧ b = true
  · rw [if_pos hc] at h; cases h
  · rw [if_neg hc] at h
    cases hp : data.getCol "PANEL" with
    | none =>
        rw [hp] at h
        exact ((Except.error.injEq _ _ ▸ h)).symm
    | some c => rw [hp] at h; cases h

theorem computeAesthetics_ne_lengthMismatch (env : EvalEnv)
    (data : DataFrame) (aes : List (String × AesVal))
    (ov : Option AesVal) (h0 : data.nrows = 0) :
    computeAesthetics env data aes ov ≠ .error .lengthMismatch := by
  unfold computeAesthetics
  cases h1 : processAll env data (applyGroupOverride aes ov)
      (data.emptyLike, false) with
  | error e =>
      simp only [Except.bind]
      intro hEq
      have he : e = .lengthMismatch := (Except.error.injEq _ _ ▸ hEq)
      exact processAll_ne_lengthMismatch env data _ _ h0 (he ▸ h1)
  | ok st =>
      simp only [Except.bind]
      cases h2 : panelStep data (widenInts st.1) st.2 with
      | error e2 =>
          simp only [Except.map]
          intro hEq
          have he : e2 = .lengthMismatch := (Except.error.injEq _ _ ▸ hEq)
          have := panelStep_error_keyError _ _ _ _ h2
          rw [he] at this
          cases this
      | ok d => simp [Except.map]

/-- C7 counterexample: mapping `y = '..count..'` against a dataset that
already has a `y` column (as well as the `count` column the statistic
produced) makes `map_statistic` emit a duplicate `y` column, so the claim
as stated — distinct column names are always preserved — is false. -/
theorem map_statistic_dup_columns_cex :
    (DataFrame.mk 1 [("y", [Val.vInt 0]),
      ("count", [Val.vInt 3])]).colNames.Nodup ∧
    (DataFrame.mk 1 [("y", [Val.vInt 0]),
      ("count", [Val.vInt 3])]).nrows ≠ 0 ∧
    mapStatistic [("y", AesVal.str "..count..")] [] [] false false
      (fun d => d)
      (DataFrame.mk 1 [("y", [Val.vInt 0]), ("count", [Val.vInt 3])]) =
      .ok (DataFrame.mk 1 [("y", [Val.vInt 0]), ("count", [Val.vInt 3]),
        ("y", [Val.vInt 3])]) ∧
    ¬(DataFrame.mk 1 [("y", [Val.vInt 0]), ("count", [Val.vInt 3]),
        ("y", [Val.vInt 3])]).colNames.Nodup :=
  ⟨by decide, by decide, rfl, by decide⟩

/-- C7 (amended): `map_statistic` preserves pairwise-distinct column names
provided no calculated aesthetic whose name differs from its stripped
source column collides with an existing column name (the case the
counterexample exhibits); and for a calculated aesthetic whose stripped
name equals the aesthetic name itself (e.g. `y = '..y..'`) no column is
appended for it, so such a mapping never introduces a duplicate. -/
theorem map_statistic_no_dup_columns
    (mapping plotMapping statDefaultAes : List (String × AesVal))
    (inherit_aes retransform : Bool) (transform : DataFrame → DataFrame)
    (data df : DataFrame)
    (hnodup : data.colNames.Nodup)
    (htrans : ∀ d, (transform d).colNames = d.colNames)
    (hkeys : ((calcPairs (assembleAes mapping plotMapping statDefaultAes
      inherit_aes)).map Prod.fst).Nodup)
    (hnocollide : ∀ p ∈ calcPairs (assembleAes mapping plotMapping
      statDefaultAes inherit_aes), p.1 ≠ p.2 → p.1 ∉ data.colNames)
    (hres : mapStatistic mapping plotMapping statDefaultAes inherit_aes
      retransform transform data = .ok df) :
    df.colNames.Nodup ∧
    (∀ p ∈ calcPairs (assembleAes mapping plotMapping statDefaultAes
      inherit_aes), p.1 = p.2 →
      (p.1 ∈ df.colNames ↔ p.1 ∈ data.colNames)) := by
  simp only [mapStatistic] at hres
  by_cases h0 : data.nrows = 0
  · rw [if_pos h0] at hres
    have h2 : data = df := Except.ok.injEq _ _ ▸ hres
    rw [← h2]
    exact ⟨hnodup, fun p _ _ => Iff.rfl⟩
  · rw [if_neg h0] at hres
    by_cases hpair : calcPairs (assembleAes mapping plotMapping
        statDefaultAes inherit_aes) = []
    · rw [if_pos hpair] at hres
      have h2 : data = df := Except.ok.injEq _ _ ▸ hres
      rw [← h2]
      exact ⟨hnodup, fun p _ _ => Iff.rfl⟩
    · rw [if_neg hpair] at hres
      cases hbuild : buildStatData data
          (calcPairs (assembleAes mapping plotMapping statDefaultAes
            inherit_aes)) ⟨data.nrows, []⟩ with
      | error e => rw [hbuild] at hres; cases hres
      | ok sd =>
          rw [hbuild] at hres
          simp only [Except.map] at hres
          have hdf : df = concatCols data
              (if retransform then transform sd else sd) :=
            ((Except.ok.injEq _ _ ▸ hres)).symm
          obtain ⟨hnodupSD, hmemSD⟩ := buildStatData_ok data _ _ sd hbuild
          have hsdnd : sd.colNames.Nodup := hnodupSD (by
            show (([] : List (String × List Val)).map Prod.fst).Nodup
            simp)
          have hnames : df.colNames = data.colNames ++ sd.colNames := by
            rw [hdf, concatCols_colNames]
            by_cases hr : retransform
            · rw [if_pos hr, htrans]
            · rw [if_neg hr]
          have hsdData : ∀ m, m ∈ sd.colNames → m ∉ data.colNames := by
            intro m hm
            rcases hmemSD m hm with hacc | ⟨q, hq, hq1, hq2⟩
            · exact absurd hacc (by simp [DataFrame.colNames])
            · exact hq1 ▸ hnocollide q hq hq2
          refine ⟨?_, ?_⟩
          · rw [hnames, List.nodup_append]
            exact ⟨hnodup, hsdnd, fun a ha hb => hsdData a hb ha⟩
          · intro p hp hpe
            rw [hnames, List.mem_append]
            constructor
            · rintro (h1 | h1)
              · exact h1
              · exfalso
                rcases hmemSD p.1 h1 with hacc | ⟨q, hq, hq1, hq2⟩
                · exact absurd hacc (by simp [DataFrame.colNames])
                · have hqp : q = p := nodup_map_inj Prod.fst _ hkeys q p
                    hq hp hq1
                  rw [hqp] at hq2
                  exact hq2 hpe
            · exact fun h1 => Or.inl h1

/-- Witness for C7 (amended) at the standard `y = '..count..'` statistic
mapping, the dataset holding only the computed `count` column and `x`. -/
theorem map_statistic_no_dup_columns_witness :
    (DataFrame.mk 2 [("x", [Val.vInt 1, Val.vInt 2]),
      ("count", [Val.vInt 5, Val.vInt 7])]).colNames.Nodup ∧
    mapStatistic [("y", AesVal.str "..count..")] [] [] false false
      (fun d => d)
      (DataFrame.mk 2 [("x", [Val.vInt 1, Val.vInt 2]),
        ("count", [Val.vInt 5, Val.vInt 7])]) =
      .ok (DataFrame.mk 2 [("x", [Val.vInt 1, Val.vInt 2]),
        ("count", [Val.vInt 5, Val.vInt 7]),
        ("y", [Val.vInt 5, Val.vInt 7])]) ∧
    (DataFrame.mk 2 [("x", [Val.vInt 1, Val.vInt 2]),
      ("count", [Val.vInt 5, Val.vInt 7]),
      ("y", [Val.vInt 5, Val.vInt 7])]).colNames.Nodup :=
  ⟨by decide, rfl,
   (map_statistic_no_dup_columns [("y", AesVal.str "..count..")] [] []
     false false (fun d => d)
     (DataFrame.mk 2 [("x", [Val.vInt 1, Val.vInt 2]),
       ("count", [Val.vInt 5, Val.vInt 7])])
     (DataFrame.mk 2 [("x", [Val.vInt 1, Val.vInt 2]),
       ("count", [Val.vInt 5, Val.vInt 7]),
       ("y", [Val.vInt 5, Val.vInt 7])])
     (by decide) (fun d => rfl) (by decide) (by decide) rfl).1⟩

/-- C8 counterexample: `compute_aesthetics` on a 0-row dataset does raise
when an aesthetic expression fails to evaluate, so "no stage raises on
empty data" is false as stated. -/
theorem empty_data_eval_error_cex :
    (DataFrame.mk 0 []).nrows = 0 ∧
    computeAesthetics (fun _ _ => Except.error "NameError")
      (DataFrame.mk 0 []) [("x", AesVal.str "undefined_name")] none =
      .error (.evalFail "x" "undefined_name" "NameError") :=
  ⟨rfl, rfl⟩

/-- C8 (amended): on a 0-row dataset, `compute_statistic`, `setup_data`
and `map_statistic` return without error and leave the dataset unchanged
(hence empty), and `compute_aesthetics` never raises the length-mismatch
error (though it can still raise an evaluation error);
`compute_position` has no empty-data guard and simply delegates to the
position unit's total hooks. -/
theorem empty_data_stage_behaviour {π ρ : Type} (stat : StatUnit π ρ)
    (panel : ρ) (geom : GeomUnit)
    (mapping plotMapping statDefaultAes : List (String × AesVal))
    (inherit_aes retransform : Bool) (transform : DataFrame → DataFrame)
    (env : EvalEnv) (aes : List (String × AesVal)) (ov : Option AesVal)
    (data : DataFrame) (h0 : data.nrows = 0) :
    computeStatistic stat panel data = data ∧
    layerSetupData geom data = .ok data ∧
    mapStatistic mapping plotMapping statDefaultAes inherit_aes
      retransform transform data = .ok data ∧
    computeAesthetics env data aes ov ≠ .error .lengthMismatch :=
  ⟨by simp [computeStatistic, h0], by simp [layerSetupData, h0],
   by simp [mapStatistic, h0],
   computeAesthetics_ne_lengthMismatch env data aes ov h0⟩

/-- Witness for C8 (amended) at concrete trivial units and an empty
dataset. -/
theorem empty_data_stage_behaviour_witness :
    (DataFrame.mk 0 [("x", [])]).nrows = 0 ∧
    computeStatistic
      (StatUnit.mk (π := Unit) (ρ := Unit) (fun _ => ()) id id
        (fun d _ _ => d)) () (DataFrame.mk 0 [("x", [])]) =
      DataFrame.mk 0 [("x", [])] ∧
    layerSetupData (GeomUnit.mk "geom_point" id [] [])
      (DataFrame.mk 0 [("x", [])]) = .ok (DataFrame.mk 0 [("x", [])]) ∧
    mapStatistic [] [] [] true true (fun d => d)
      (DataFrame.mk 0 [("x", [])]) = .ok (DataFrame.mk 0 [("x", [])]) ∧
    computeAesthetics (fun _ _ => Except.error "NameError")
      (DataFrame.mk 0 [("x", [])]) [("y", AesVal.str "undefined_name")]
      none ≠ .error .lengthMismatch :=
  ⟨rfl,
   (empty_data_stage_behaviour
     (StatUnit.mk (π := Unit) (ρ := Unit) (fun _ => ()) id id
       (fun d _ _ => d)) () (GeomUnit.mk "geom_point" id [] []) [] [] []
     true true (fun d => d) (fun _ _ => Except.error "NameError")
     [("y", AesVal.str "undefined_name")] none
     (DataFrame.mk 0 [("x", [])]) rfl).1,
   (empty_data_stage_behaviour
     (StatUnit.mk (π := Unit) (ρ := Unit) (fun _ => ()) id id
       (fun d _ _ => d)) () (GeomUnit.mk "geom_point" id [] []) [] [] []
     true true (fun d => d) (fun _ _ => Except.error "NameError")
     [("y", AesVal.str "undefined_name")] none
     (DataFrame.mk 0 [("x", [])]) rfl).2⟩

theorem deepcopyObj_val (memo : List (Nat × Nat)) (fresh : Nat) (o : PyObj) :
    (deepcopyObj memo fresh o).1.val = o.val := by
  unfold deepcopyObj
  cases memo.find? (fun p => p.1 = o.id) <;> rfl

theorem deepcopyObj_fresh_le (memo : List (Nat × Nat)) (fresh : Nat)
    (o : PyObj) : fresh ≤ (deepcopyObj memo fresh o).2.2 := by
  unfold deepcopyObj
  cases memo.find? (fun p => p.1 = o.id) with
  | none => exact Nat.le_succ fresh
  | some p => exact Nat.le_refl fresh

theorem deepcopyObj_id_ge (memo : List (Nat × Nat)) (fresh0 fresh : Nat)
    (o : PyObj) (hf : fresh0 ≤ fresh) (hm : ∀ p ∈ memo, fresh0 ≤ p.2) :
    fresh0 ≤ (deepcopyObj memo fresh o).1.id := by
  unfold deepcopyObj
  cases hfind : memo.find? (fun p => p.1 = o.id) with
  | none => exact hf
  | some p => exact hm p (List.mem_of_find?_eq_some hfind)

theorem deepcopyObj_memo_ge (memo : List (Nat × Nat)) (fresh0 fresh : Nat)
    (o : PyObj) (hf : fresh0 ≤ fresh) (hm : ∀ p ∈ memo, fresh0 ≤ p.2) :
    ∀ p ∈ (deepcopyObj memo fresh o).2.1, fresh0 ≤ p.2 := by
  unfold deepcopyObj
  cases hfind : memo.find? (fun p => p.1 = o.id) with
  | none =>
      intro p hp
      simp only at hp
      rcases List.mem_cons.mp hp with h1 | h2
      · rw [h1]; exact hf
      · exact hm p h2
  | some q => exact hm

/-- C9: a deep copy of a layer shares the `data` field by reference with the
original (identical object), while every other field is a structurally
independent duplicate: equal structural value, but an object id fresh with
respect to every id live in the original. -/
theorem layer_deepcopy_shares_data (fresh : Nat) (l : LayerObj)
    (h : l.idsBelow fresh) :
    (layer_deepcopy fresh l).1.data = l.data ∧
    ((layer_deepcopy fresh l).1.geom.val = l.geom.val ∧
      fresh ≤ (layer_deepcopy fresh l).1.geom.id ∧
      (layer_deepcopy fresh l).1.geom.id ≠ l.geom.id) ∧
    ((layer_deepcopy fresh l).1.stat.val = l.stat.val ∧
      fresh ≤ (layer_deepcopy fresh l).1.stat.id ∧
      (layer_deepcopy fresh l).1.stat.id ≠ l.stat.id) ∧
    ((layer_deepcopy fresh l).1.mapping.val = l.mapping.val ∧
      fresh ≤ (layer_deepcopy fresh l).1.mapping.id ∧
      (layer_deepcopy fresh l).1.mapping.id ≠ l.mapping.id) ∧
    ((layer_deepcopy fresh l).1.position.val = l.position.val ∧
      fresh ≤ (layer_deepcopy fresh l).1.position.id ∧
      (layer_deepcopy fresh l).1.position.id ≠ l.position.id) ∧
    ((layer_deepcopy fresh l).1.inherit_aes.val = l.inherit_aes.val ∧
      fresh ≤ (layer_deepcopy fresh l).1.inherit_aes.id ∧
      (layer_deepcopy fresh l).1.inherit_aes.id ≠ l.inherit_aes.id) ∧
    ((layer_deepcopy fresh l).1.show_legend.val = l.show_legend.val ∧
      fresh ≤ (layer_deepcopy fresh l).1.show_legend.id ∧
      (layer_deepcopy fresh l).1.show_legend.id ≠ l.show_legend.id) ∧
    ((layer_deepcopy fresh l).1.active_mapping.val = l.active_mapping.val ∧
      fresh ≤ (layer_deepcopy fresh l).1.active_mapping.id ∧
      (layer_deepcopy fresh l).1.active_mapping.id ≠ l.active_mapping.id) ∧
    ((layer_deepcopy fresh l).1.zorder.val = l.zorder.val ∧
      fresh ≤ (layer_deepcopy fresh l).1.zorder.id ∧
      (layer_deepcopy fresh l).1.zorder.id ≠ l.zorder.id) := by
  simp only [layer_deepcopy]
  have hm0 : ∀ p ∈ ([] : List (Nat × Nat)), fresh ≤ p.2 := by
    intro p hp; cases hp
  have hm1 : ∀ p ∈ (dcGeom fresh l).2.1, fresh ≤ p.2 := by
    unfold dcGeom
    exact deepcopyObj_memo_ge [] fresh fresh l.geom (Nat.le_refl _) hm0
  have hf1 : fresh ≤ (dcGeom fresh l).2.2 := by
    unfold dcGeom; exact deepcopyObj_fresh_le [] fresh l.geom
  have hm2 : ∀ p ∈ (dcStat fresh l).2.1, fresh ≤ p.2 := by
    unfold dcStat; exact deepcopyObj_memo_ge _ fresh _ l.stat hf1 hm1
  have hf2 : fresh ≤ (dcStat fresh l).2.2 := by
    unfold dcStat
    exact Nat.le_trans hf1 (deepcopyObj_fresh_le _ _ l.stat)
  have hm3 : ∀ p ∈ (dcMapping fresh l).2.1, fresh ≤ p.2 := by
    unfold dcMapping; exact deepcopyObj_memo_ge _ fresh _ l.mapping hf2 hm2
  have hf3 : fresh ≤ (dcMapping fresh l).2.2 := by
    unfold dcMapping
    exact Nat.le_trans hf2 (deepcopyObj_fresh_le _ _ l.mapping)
  have hm4 : ∀ p ∈ (dcPosition fresh l).2.1, fresh ≤ p.2 := by
    unfold dcPosition
    exact deepcopyObj_memo_ge _ fresh _ l.position hf3 hm3
  have hf4 : fresh ≤ (dcPosition fresh l).2.2 := by
    unfold dcPosition
    exact Nat.le_trans hf3 (deepcopyObj_fresh_le _ _ l.position)
  have hm5 : ∀ p ∈ (dcInheritAes fresh l).2.1, fresh ≤ p.2 := by
    unfold dcInheritAes
    exact deepcopyObj_memo_ge _ fresh _ l.inherit_aes hf4 hm4
  have hf5 : fresh ≤ (dcInheritAes fresh l).2.2 := by
    unfold dcInheritAes
    exact Nat.le_trans hf4 (deepcopyObj_fresh_le _ _ l.inherit_aes)
  have hm6 : ∀ p ∈ (dcShowLegend fresh l).2.1, fresh ≤ p.2 := by
    unfold dcShowLegend
    exact deepcopyObj_memo_ge _ fresh _ l.show_legend hf5 hm5
  have hf6 : fresh ≤ (dcShowLegend fresh l).2.2 := by
    unfold dcShowLegend
    exact Nat.le_trans hf5 (deepcopyObj_fresh_le _ _ l.show_legend)
  have hm7 : ∀ p ∈ (dcActiveMapping fresh l).2.1, fresh ≤ p.2 := by
    unfold dcActiveMapping
    exact deepcopyObj_memo_ge _ fresh _ l.active_mapping hf6 hm6
  have hf7 : fresh ≤ (dcActiveMapping fresh l).2.2 := by
    unfold dcActiveMapping
    exact Nat.le_trans hf6 (deepcopyObj_fresh_le _ _ l.active_mapping)
  obtain ⟨hg0, hs0, hd0, hmp0, hp0, hia0, hsl0, ham0, hz0⟩ := h
  have hidG : fresh ≤ (dcGeom fresh l).1.id := by
    unfold dcGeom
    exact deepcopyObj_id_ge [] fresh fresh l.geom (Nat.le_refl _) hm0
  have hidS : fresh ≤ (dcStat fresh l).1.id := by
    unfold dcStat; exact deepcopyObj_id_ge _ fresh _ l.stat hf1 hm1
  have hidM : fresh ≤ (dcMapping fresh l).1.id := by
    unfold dcMapping; exact deepcopyObj_id_ge _ fresh _ l.mapping hf2 hm2
  have hidP : fresh ≤ (dcPosition fresh l).1.id := by
    unfold dcPosition; exact deepcopyObj_id_ge _ fresh _ l.position hf3 hm3
  have hidIA : fresh ≤ (dcInheritAes fresh l).1.id := by
    unfold dcInheritAes
    exact deepcopyObj_id_ge _ fresh _ l.inherit_aes hf4 hm4
  have hidSL : fresh ≤ (dcShowLegend fresh l).1.id := by
    unfold dcShowLegend
    exact deepcopyObj_id_ge _ fresh _ l.show_legend hf5 hm5
  have hidAM : fresh ≤ (dcActiveMapping fresh l).1.id := by
    unfold dcActiveMapping
    exact deepcopyObj_id_ge _ fresh _ l.active_mapping hf6 hm6
  have hidZ : fresh ≤ (dcZorder fresh l).1.id := by
    unfold dcZorder; exact deepcopyObj_id_ge _ fresh _ l.zorder hf7 hm7
  have hvG : (dcGeom fresh l).1.val = l.geom.val := by
    unfold dcGeom; exact deepcopyObj_val _ _ _
  have hvS : (dcStat fresh l).1.val = l.stat.val := by
    unfold dcStat; exact deepcopyObj_val _ _ _
  have hvM : (dcMapping fresh l).1.val = l.mapping.val := by
    unfold dcMapping; exact deepcopyObj_val _ _ _
  have hvP : (dcPosition fresh l).1.val = l.position.val := by
    unfold dcPosition; exact deepcopyObj_val _ _ _
  have hvIA : (dcInheritAes fresh l).1.val = l.inherit_aes.val := by
    unfold dcInheritAes; exact deepcopyObj_val _ _ _
  have hvSL : (dcShowLegend fresh l).1.val = l.show_legend.val := by
    unfold dcShowLegend; exact deepcopyObj_val _ _ _
  have hvAM : (dcActiveMapping fresh l).1.val = l.active_mapping.val := by
    unfold dcActiveMapping; exact deepcopyObj_val _ _ _
  have hvZ : (dcZorder fresh l).1.val = l.zorder.val := by
    unfold dcZorder; exact deepcopyObj_val _ _ _
  exact ⟨trivial,
    ⟨hvG, hidG, (Nat.lt_of_lt_of_le hg0 hidG).ne'⟩,
    ⟨hvS, hidS, (Nat.lt_of_lt_of_le hs0 hidS).ne'⟩,
    ⟨hvM, hidM, (Nat.lt_of_lt_of_le hmp0 hidM).ne'⟩,
    ⟨hvP, hidP, (Nat.lt_of_lt_of_le hp0 hidP).ne'⟩,
    ⟨hvIA, hidIA, (Nat.lt_of_lt_of_le hia0 hidIA).ne'⟩,
    ⟨hvSL, hidSL, (Nat.lt_of_lt_of_le hsl0 hidSL).ne'⟩,
    ⟨hvAM, hidAM, (Nat.lt_of_lt_of_le ham0 hidAM).ne'⟩,
    ⟨hvZ, hidZ, (Nat.lt_of_lt_of_le hz0 hidZ).ne'⟩⟩

/-- Witness for C9 at a concrete layer object. -/
theorem layer_deepcopy_shares_data_witness :
    (LayerObj.mk ⟨0, 1⟩ ⟨1, 2⟩ ⟨2, 3⟩ ⟨3, 4⟩ ⟨4, 5⟩ ⟨5, 6⟩ ⟨6, 7⟩ ⟨7, 8⟩
      ⟨8, 9⟩).idsBelow 100 ∧
    (layer_deepcopy 100
      (LayerObj.mk ⟨0, 1⟩ ⟨1, 2⟩ ⟨2, 3⟩ ⟨3, 4⟩ ⟨4, 5⟩ ⟨5, 6⟩ ⟨6, 7⟩ ⟨7, 8⟩
        ⟨8, 9⟩)).1.data =
      (LayerObj.mk ⟨0, 1⟩ ⟨1, 2⟩ ⟨2, 3⟩ ⟨3, 4⟩ ⟨4, 5⟩ ⟨5, 6⟩ ⟨6, 7⟩ ⟨7, 8⟩
        ⟨8, 9⟩).data :=
  ⟨by decide,
   (layer_deepcopy_shares_data 100
     (LayerObj.mk ⟨0, 1⟩ ⟨1, 2⟩ ⟨2, 3⟩ ⟨3, 4⟩ ⟨4, 5⟩ ⟨5, 6⟩ ⟨6, 7⟩ ⟨7, 8⟩
       ⟨8, 9⟩) (by decide)).1⟩

end GGLayer
